import Mathlib

/-!
Verification of the multi-account API request router of this repository
(`src/autox_ai/api_manager_enhanced.py`, class `EnhancedAPIManager`, together
with the configuration constants of `src/autox_ai/config.py`).

Modelling conventions, shared by every definition below:

* Machine wall-clock times (`datetime.now()` values) are rationals measured in
  minutes.  Each Python method that internally calls `datetime.now()` receives
  the current instant as an explicit `now : ℚ` argument; the sub-millisecond
  drift between several `datetime.now()` calls inside one method body is
  collapsed to a single instant, exactly as the spec describes the operations.
* `timedelta(minutes=x)` therefore becomes addition of `x` to a time value,
  and `total_seconds() / 3600` (idle hours) becomes `(now - t) / 60`.
* The only non-algebraic number operation of the source is
  `HEALTH_DECAY_RATE ** (time_since_last_use / 24)` (a real power with a
  rational exponent).  It is modelled by an explicit decay-factor oracle
  `d : ℚ → ℚ` mapping the idle time in hours to the decay factor
  `0.95 ^ (hours / 24)`; all theorems below hold either for every such
  function or under the single fact `d 0 = 1` (any real exponential satisfies
  it), so nothing depends on the transcendental values themselves.
* Python dict/set/list data is modelled with association lists and `List`;
  floats are modelled as exact rationals (`ℚ`).
* I/O (file persistence, logging, `time.sleep`) has no effect on the tracked
  account state and is dropped; the *data* written and read by
  `_save_account_status` / `_initialize_account_status` is modelled in the
  serialization section below.
-/

/-- `RETRY_LIMIT = 3` from `config.py`. -/
def RETRY_LIMIT : Nat := 3

/-- `RATE_LIMIT_COOLDOWN = 15` minutes from `config.py`. -/
def RATE_LIMIT_COOLDOWN : ℚ := 15

/-- `MIN_HEALTH_FOR_PRIMARY = 50` from `api_manager_enhanced.py`. -/
def MIN_HEALTH_FOR_PRIMARY : ℚ := 50

/-- `MAX_CONSECUTIVE_FAILURES = 5` from `api_manager_enhanced.py`. -/
def MAX_CONSECUTIVE_FAILURES : Nat := 5

/-- `BLACKLIST_DURATION = 30` minutes from `api_manager_enhanced.py`. -/
def BLACKLIST_DURATION : ℚ := 30

/-- `HEALTH_RECOVERY_RATE = 2` from `api_manager_enhanced.py`. -/
def HEALTH_RECOVERY_RATE : ℚ := 2

/-- `HEALTH_PENALTY_RATE = 10` from `api_manager_enhanced.py`. -/
def HEALTH_PENALTY_RATE : ℚ := 10

/-- `HEALTH_CHECK_INTERVAL = 60 * 30` seconds from `api_manager_enhanced.py`,
expressed in minutes (times are rationals in minutes). -/
def HEALTH_CHECK_INTERVAL_MIN : ℚ := 30

/-- The per-account mutable status dictionary created by
`EnhancedAPIManager._create_default_status`, one field per dict key.
Timestamps are `Option ℚ` (minutes); `error_types` is the insertion-ordered
association list behind the Python dict. -/
structure AccountStatus where
  failures : Nat
  consecutive_failures : Nat
  rate_limited_until : Option ℚ
  blacklisted_until : Option ℚ
  last_success : Option ℚ
  total_requests : Nat
  total_failures : Nat
  health_score : ℚ
  cooldown_multiplier : ℚ
  last_used : Option ℚ
  avg_response_time : Option ℚ
  response_times : List ℚ
  error_types : List (String × Nat)
  last_error : Option String
  success_streak : Nat
deriving DecidableEq

/-- `EnhancedAPIManager._create_default_status`. -/
def default_status : AccountStatus where
  failures := 0
  consecutive_failures := 0
  rate_limited_until := none
  blacklisted_until := none
  last_success := none
  total_requests := 0
  total_failures := 0
  health_score := 100
  cooldown_multiplier := 1
  last_used := none
  avg_response_time := none
  response_times := []
  error_types := []
  last_error := none
  success_streak := 0

/-- Whether an optional expiry timestamp is set and still in the future
(the two `status[...] and status[...] > datetime.now()` guards of
`is_account_available`; a set `datetime` is always truthy in Python). -/
def expiry_active (o : Option ℚ) (now : ℚ) : Bool :=
  match o with
  | some t => decide (now < t)
  | none => false

/-- `EnhancedAPIManager.is_account_available`: not rate limited and not
blacklisted at instant `now`. -/
def is_account_available (now : ℚ) (s : AccountStatus) : Bool :=
  if expiry_active s.rate_limited_until now then false
  else if expiry_active s.blacklisted_until now then false
  else true

/-- `EnhancedAPIManager._update_health_score`: multiply by the idle-time decay
factor when `last_used` is set, add the signed change, then clamp into
`[0, 100]`.  `d` is the decay-factor oracle (see file header); the idle time
handed to it is in hours, `(now - t) / 60`. -/
def update_health_score (d : ℚ → ℚ) (now : ℚ) (lastUsed : Option ℚ)
    (score change : ℚ) : ℚ :=
  let decayed :=
    match lastUsed with
    | some t => score * d ((now - t) / 60)
    | none => score
  max 0 (min 100 (decayed + change))

/-- `status["error_types"][k] = status["error_types"].get(k, 0) + 1` on the
insertion-ordered association list behind the Python dict. -/
def bump_error : List (String × Nat) → String → List (String × Nat)
  | [], k => [(k, 1)]
  | (k', n) :: rest, k =>
      if k' = k then (k', n + 1) :: rest else (k', n) :: bump_error rest k

/-- Arithmetic mean of a list of rationals (`sum(...) / len(...)`). -/
def rat_mean (l : List ℚ) : ℚ := l.sum / (l.length : ℚ)

/-- `EnhancedAPIManager._calculate_response_time_factor` for account `i`,
reading the response-time windows of the whole status map. -/
def calc_response_time_factor (ss : List AccountStatus) (i : Nat) : ℚ :=
  match ss.get? i with
  | none => 1
  | some s =>
      if s.response_times.isEmpty then 1
      else
        let avgTime := rat_mean s.response_times
        let allAvgTimes :=
          (ss.filter (fun x => !x.response_times.isEmpty)).map
            (fun x => rat_mean x.response_times)
        if allAvgTimes.isEmpty then 1
        else
          let globalAvg := rat_mean allAvgTimes
          if globalAvg = 0 then 1 else globalAvg / max (1/10) avgTime

/-- An in-place `self._update_health_score(index, change)` call: replace the
health score of `s` by its clamped, decayed update. -/
def with_health_change (d : ℚ → ℚ) (now : ℚ) (change : ℚ)
    (s : AccountStatus) : AccountStatus :=
  { s with health_score := update_health_score d now s.last_used s.health_score change }

/-- `EnhancedAPIManager._blacklist_account`: stamp
`blacklisted_until = now + BLACKLIST_DURATION` and apply the extra `-50`
health penalty. -/
def blacklist_account (d : ℚ → ℚ) (now : ℚ) (s : AccountStatus) : AccountStatus :=
  with_health_change d now (-50)
    { s with blacklisted_until := some (now + BLACKLIST_DURATION) }

/-- The final `if status["consecutive_failures"] >= MAX_CONSECUTIVE_FAILURES`
check of `mark_rate_limited`, applied to the status as updated by the lines
above it. -/
def rate_limit_blacklist_check (d : ℚ → ℚ) (now : ℚ)
    (s3 : AccountStatus) : AccountStatus :=
  if MAX_CONSECUTIVE_FAILURES ≤ s3.consecutive_failures then
    blacklist_account d now s3
  else s3

/-- `EnhancedAPIManager.mark_rate_limited`.  `minutes = None` (and the falsy
`minutes = 0`, because of the Python `minutes or RATE_LIMIT_COOLDOWN`) selects
the configured base cooldown.  Side-effect-only statements (logging, the
opportunistic `_save_account_status` call) are dropped. -/
def mark_rate_limited (d : ℚ → ℚ) (now : ℚ) (minutes : Option ℚ)
    (s : AccountStatus) : AccountStatus :=
  let s1 := { s with
      consecutive_failures := s.consecutive_failures + 1,
      cooldown_multiplier := min 5 (s.cooldown_multiplier * (3/2)) }
  let baseCooldown : ℚ :=
    match minutes with
    | some x => if x = 0 then RATE_LIMIT_COOLDOWN else x
    | none => RATE_LIMIT_COOLDOWN
  let dynamicCooldown := baseCooldown * s1.cooldown_multiplier
  let s2 := { s1 with
      rate_limited_until := some (now + dynamicCooldown),
      failures := s1.failures + 1,
      total_failures := s1.total_failures + 1,
      success_streak := 0,
      error_types := bump_error s1.error_types "rate_limit",
      last_error := some "Rate limit exceeded" }
  rate_limit_blacklist_check d now
    (with_health_change d now (-(HEALTH_PENALTY_RATE * (3/2))) s2)

/-- The trailing `if is_rate_limit / elif ... / elif ...` chain of
`mark_failure`, applied to the status as updated by the lines above it. -/
def failure_escalation (d : ℚ → ℚ) (now : ℚ) (isRateLimit : Bool)
    (s2 : AccountStatus) : AccountStatus :=
  if isRateLimit then mark_rate_limited d now none s2
  else if MAX_CONSECUTIVE_FAILURES ≤ s2.consecutive_failures then
    blacklist_account d now s2
  else if 3 ≤ s2.consecutive_failures then
    { s2 with
        rate_limited_until :=
          some (now + min 30 (5 * (s2.consecutive_failures : ℚ))) }
  else s2

/-- `EnhancedAPIManager.mark_failure`.  `em` is the optional
`error_message` argument; the Python `error_message or f"Error type: ..."`
treats an empty message as absent. -/
def mark_failure (d : ℚ → ℚ) (now : ℚ) (isRateLimit : Bool) (errorType : String)
    (em : Option String) (s : AccountStatus) : AccountStatus :=
  let s1 := { s with
      failures := s.failures + 1,
      consecutive_failures := s.consecutive_failures + 1,
      total_failures := s.total_failures + 1,
      last_used := some now,
      success_streak := 0,
      error_types := bump_error s.error_types errorType,
      last_error :=
        match em with
        | some msg => if msg = "" then some ("Error type: " ++ errorType) else some msg
        | none => some ("Error type: " ++ errorType) }
  let penalty : ℚ :=
    if errorType = "auth" then HEALTH_PENALTY_RATE * 2 else HEALTH_PENALTY_RATE
  failure_escalation d now isRateLimit (with_health_change d now (-penalty) s1)

/-- The counter / streak / response-time-window / cooldown updates at the top
of `mark_success` (everything before `_calculate_response_time_factor`), on
the single affected status.  `rt` is the optional `response_time` argument;
the Python truthiness test `if response_time:` discards both `None` and
`0.0`. -/
def success_base (now : ℚ) (rt : Option ℚ) (s : AccountStatus) : AccountStatus :=
  let s1 := { s with
      last_success := some now,
      last_used := some now,
      failures := 0,
      consecutive_failures := 0,
      total_requests := s.total_requests + 1,
      success_streak := s.success_streak + 1 }
  let s2 :=
    match rt with
    | some t =>
        if t = 0 then s1
        else
          let appended := s1.response_times ++ [t]
          let window :=
            if 10 < appended.length then appended.drop (appended.length - 10)
            else appended
          { s1 with
              response_times := window,
              avg_response_time := some (rat_mean window) }
    | none => s1
  { s2 with cooldown_multiplier := max 1 (s2.cooldown_multiplier * (4/5)) }

/-- The `if status["blacklisted_until"]: status["blacklisted_until"] = None`
tail of `mark_success`. -/
def clear_blacklist (s4 : AccountStatus) : AccountStatus :=
  if s4.blacklisted_until.isSome then { s4 with blacklisted_until := none }
  else s4

/-- `EnhancedAPIManager.mark_success` acting on the whole status map, because
`_calculate_response_time_factor` reads every account's response times (the
in-place dict mutations made so far are visible to it, hence the
intermediate `ss.set`). -/
def mark_success (d : ℚ → ℚ) (now : ℚ) (i : Nat) (rt : Option ℚ)
    (ss : List AccountStatus) : List AccountStatus :=
  match ss.get? i with
  | none => ss
  | some s =>
      let s3 := success_base now rt s
      let ssMid := ss.set i s3
      let responseTimeFactor := calc_response_time_factor ssMid i
      let streakBonus : ℚ := min 5 ((s3.success_streak : ℚ) / 2)
      let s4 := with_health_change d now
        (HEALTH_RECOVERY_RATE * responseTimeFactor + streakBonus) s3
      ss.set i (clear_blacklist s4)

/-- Apply a per-status update to slot `i` of the status map (a Python
`self.account_status[index]` in-place mutation). -/
def set_at (ss : List AccountStatus) (i : Nat)
    (f : AccountStatus → AccountStatus) : List AccountStatus :=
  match ss.get? i with
  | some s => ss.set i (f s)
  | none => ss

/-- One status-update event of the manager, as named by the spec: a success, a
(possibly rate-limit) failure, a direct `mark_rate_limited` call, or a direct
`_blacklist_account` call. -/
inductive AEvent where
  | success (rt : Option ℚ)
  | failure (isRateLimit : Bool) (errorType : String) (em : Option String)
  | rateLimit (minutes : Option ℚ)
  | blacklist
deriving DecidableEq

/-- Dispatch one event aimed at account `i` through the corresponding
status-update operation of the manager. -/
def apply_event (d : ℚ → ℚ) (now : ℚ) (p : Nat × AEvent)
    (ss : List AccountStatus) : List AccountStatus :=
  match p with
  | (i, .success rt) => mark_success d now i rt ss
  | (i, .failure rl et em) => set_at ss i (mark_failure d now rl et em)
  | (i, .rateLimit m) => set_at ss i (mark_rate_limited d now m)
  | (i, .blacklist) => set_at ss i (blacklist_account d now)

/-- A sequence of status-update events, applied in order. -/
def apply_events (d : ℚ → ℚ) (now : ℚ) (es : List (Nat × AEvent))
    (ss : List AccountStatus) : List AccountStatus :=
  es.foldl (fun acc e => apply_event d now e acc) ss

theorem update_health_score_nonneg (d : ℚ → ℚ) (now : ℚ) (lu : Option ℚ)
    (h c : ℚ) : 0 ≤ update_health_score d now lu h c :=
  le_max_left 0 _

theorem update_health_score_le (d : ℚ → ℚ) (now : ℚ) (lu : Option ℚ)
    (h c : ℚ) : update_health_score d now lu h c ≤ 100 := by
  unfold update_health_score
  exact max_le (by norm_num) (min_le_left 100 _)

theorem with_health_change_health_bounds (d : ℚ → ℚ) (now : ℚ) (c : ℚ)
    (s : AccountStatus) :
    0 ≤ (with_health_change d now c s).health_score ∧
      (with_health_change d now c s).health_score ≤ 100 :=
  ⟨update_health_score_nonneg .., update_health_score_le ..⟩

theorem blacklist_account_health_bounds (d : ℚ → ℚ) (now : ℚ) (s : AccountStatus) :
    0 ≤ (blacklist_account d now s).health_score ∧
      (blacklist_account d now s).health_score ≤ 100 :=
  with_health_change_health_bounds ..

theorem rate_limit_blacklist_check_health_bounds (d : ℚ → ℚ) (now : ℚ)
    (s3 : AccountStatus)
    (hs3 : 0 ≤ s3.health_score ∧ s3.health_score ≤ 100) :
    0 ≤ (rate_limit_blacklist_check d now s3).health_score ∧
      (rate_limit_blacklist_check d now s3).health_score ≤ 100 := by
  unfold rate_limit_blacklist_check
  split
  · exact blacklist_account_health_bounds ..
  · exact hs3

theorem mark_rate_limited_health_bounds (d : ℚ → ℚ) (now : ℚ) (m : Option ℚ)
    (s : AccountStatus) :
    0 ≤ (mark_rate_limited d now m s).health_score ∧
      (mark_rate_limited d now m s).health_score ≤ 100 := by
  unfold mark_rate_limited
  exact rate_limit_blacklist_check_health_bounds d now _
    (with_health_change_health_bounds ..)

theorem failure_escalation_health_bounds (d : ℚ → ℚ) (now : ℚ) (rl : Bool)
    (s2 : AccountStatus)
    (hs2 : 0 ≤ s2.health_score ∧ s2.health_score ≤ 100) :
    0 ≤ (failure_escalation d now rl s2).health_score ∧
      (failure_escalation d now rl s2).health_score ≤ 100 := by
  unfold failure_escalation
  split
  · exact mark_rate_limited_health_bounds ..
  · split
    · exact blacklist_account_health_bounds ..
    · split
      · exact hs2
      · exact hs2

theorem mark_failure_health_bounds (d : ℚ → ℚ) (now : ℚ) (rl : Bool)
    (et : String) (em : Option String) (s : AccountStatus) :
    0 ≤ (mark_failure d now rl et em s).health_score ∧
      (mark_failure d now rl et em s).health_score ≤ 100 := by
  unfold mark_failure
  exact failure_escalation_health_bounds d now rl _
    (with_health_change_health_bounds ..)

theorem clear_blacklist_health_eq (s4 : AccountStatus) :
    (clear_blacklist s4).health_score = s4.health_score := by
  unfold clear_blacklist
  split <;> rfl

theorem mark_success_mem_health_bounds (d : ℚ → ℚ) (now : ℚ) (i : Nat)
    (rt : Option ℚ) (ss : List AccountStatus)
    (hss : ∀ s ∈ ss, 0 ≤ s.health_score ∧ s.health_score ≤ 100) :
    ∀ s' ∈ mark_success d now i rt ss,
      0 ≤ s'.health_score ∧ s'.health_score ≤ 100 := by
  intro s' hs'
  rw [mark_success] at hs'
  revert hs'
  cases hget : ss.get? i with
  | none => intro hs'; exact hss _ hs'
  | some s =>
      intro hs'
      rcases List.mem_or_eq_of_mem_set hs' with hmem | rfl
      · exact hss _ hmem
      · rw [clear_blacklist_health_eq]
        exact with_health_change_health_bounds ..

theorem set_at_mem_health_bounds (ss : List AccountStatus) (i : Nat)
    (f : AccountStatus → AccountStatus)
    (hss : ∀ s ∈ ss, 0 ≤ s.health_score ∧ s.health_score ≤ 100)
    (hf : ∀ s, 0 ≤ (f s).health_score ∧ (f s).health_score ≤ 100) :
    ∀ s' ∈ set_at ss i f, 0 ≤ s'.health_score ∧ s'.health_score ≤ 100 := by
  intro s' hs'
  unfold set_at at hs'
  revert hs'
  cases ss.get? i with
  | none => intro hs'; exact hss _ hs'
  | some s =>
      intro hs'
      rcases List.mem_or_eq_of_mem_set hs' with hmem | rfl
      · exact hss _ hmem
      · exact hf s

theorem apply_event_health_bounds (d : ℚ → ℚ) (now : ℚ) (p : Nat × AEvent)
    (ss : List AccountStatus)
    (hss : ∀ s ∈ ss, 0 ≤ s.health_score ∧ s.health_score ≤ 100) :
    ∀ s' ∈ apply_event d now p ss,
      0 ≤ s'.health_score ∧ s'.health_score ≤ 100 := by
  rcases p with ⟨i, e⟩
  cases e with
  | success rt => exact mark_success_mem_health_bounds d now i rt ss hss
  | failure rl et em =>
      exact set_at_mem_health_bounds ss i _ hss
        (fun s => mark_failure_health_bounds d now rl et em s)
  | rateLimit m =>
      exact set_at_mem_health_bounds ss i _ hss
        (fun s => mark_rate_limited_health_bounds d now m s)
  | blacklist =>
      exact set_at_mem_health_bounds ss i _ hss
        (fun s => blacklist_account_health_bounds d now s)

theorem apply_events_health_bounds (d : ℚ → ℚ) (now : ℚ)
    (es : List (Nat × AEvent)) (ss : List AccountStatus)
    (hss : ∀ s ∈ ss, 0 ≤ s.health_score ∧ s.health_score ≤ 100) :
    ∀ s' ∈ apply_events d now es ss,
      0 ≤ s'.health_score ∧ s'.health_score ≤ 100 := by
  induction es generalizing ss with
  | nil => exact hss
  | cons e es ih =>
      exact ih (apply_event d now e ss) (apply_event_health_bounds d now e ss hss)

/-- C1: for every account pool whose health scores start inside `[0, 100]`
(in particular a freshly initialized pool) and every sequence of
success / failure / rate-limit / blacklist status-update events, every
account's `health_score` still lies in `[0, 100]` after the updates: each
status-update operation clamps the score after applying the idle-time decay
and the signed change. -/
theorem health_score_stays_in_range (d : ℚ → ℚ) (now : ℚ)
    (es : List (Nat × AEvent)) (ss : List AccountStatus) (j : Nat)
    (s' : AccountStatus)
    (hss : ∀ s ∈ ss, 0 ≤ s.health_score ∧ s.health_score ≤ 100)
    (hj : (apply_events d now es ss).get? j = some s') :
    0 ≤ s'.health_score ∧ s'.health_score ≤ 100 :=
  apply_events_health_bounds d now es ss hss s' (List.get?_mem hj)

/-- Witness for C1 at a concrete input: one rate-limit failure on a fresh
single-account pool. -/
theorem health_score_stays_in_range_witness :
    0 ≤ (((apply_events (fun _ => 1) 0 [(0, AEvent.failure true "rate_limit" none)]
        [default_status]).get? 0).getD default_status).health_score ∧
      (((apply_events (fun _ => 1) 0 [(0, AEvent.failure true "rate_limit" none)]
        [default_status]).get? 0).getD default_status).health_score ≤ 100 :=
  health_score_stays_in_range (fun _ => 1) 0
    [(0, AEvent.failure true "rate_limit" none)] [default_status] 0 _
    (by intro s hs; rw [List.mem_singleton] at hs; subst hs; constructor <;> norm_num [default_status])
    (by rfl)

theorem clamp_id (x : ℚ) (h0 : 0 ≤ x) (h100 : x ≤ 100) :
    max 0 (min 100 x) = x := by
  rw [min_eq_right h100, max_eq_right h0]

/-- Helper: `_update_health_score` adds the signed change unchanged when the
account was last used at this very instant (decay factor `d 0 = 1`) and the
result stays inside the clamp window. -/
theorem update_health_score_at_now (d : ℚ → ℚ) (now h c : ℚ) (hd : d 0 = 1)
    (h0 : 0 ≤ h + c) (h100 : h + c ≤ 100) :
    update_health_score d now (some now) h c = h + c := by
  unfold update_health_score
  dsimp only
  rw [sub_self, zero_div, hd, mul_one]
  exact clamp_id _ h0 h100

/-- Field-level description of `mark_rate_limited` (called with
`minutes = None`) below the blacklist threshold, for an account touched at
`now` whose health score can absorb the 15-point deduction without
clamping. -/
theorem mark_rate_limited_effects (d : ℚ → ℚ) (now : ℚ) (s : AccountStatus)
    (hd : d 0 = 1) (hlu : s.last_used = some now)
    (hlo : 15 ≤ s.health_score) (hhi : s.health_score ≤ 100)
    (hcf : s.consecutive_failures + 1 < MAX_CONSECUTIVE_FAILURES) :
    mark_rate_limited d now none s = { s with
      consecutive_failures := s.consecutive_failures + 1,
      cooldown_multiplier := min 5 (s.cooldown_multiplier * (3/2)),
      rate_limited_until :=
        some (now + RATE_LIMIT_COOLDOWN * min 5 (s.cooldown_multiplier * (3/2))),
      failures := s.failures + 1,
      total_failures := s.total_failures + 1,
      success_streak := 0,
      error_types := bump_error s.error_types "rate_limit",
      last_error := some "Rate limit exceeded",
      health_score := s.health_score - 15 } := by
  unfold mark_rate_limited rate_limit_blacklist_check with_health_change
  dsimp only
  rw [if_neg (by simp only [MAX_CONSECUTIVE_FAILURES] at hcf ⊢; omega)]
  rw [hlu]
  rw [update_health_score_at_now d now _ _ hd
    (by simp only [HEALTH_PENALTY_RATE]; linarith)
    (by simp only [HEALTH_PENALTY_RATE]; linarith)]
  simp only [AccountStatus.mk.injEq, HEALTH_PENALTY_RATE, sub_eq_add_neg]
  norm_num

/-- Field-level description of one HTTP 429 handled through
`mark_failure(index, is_rate_limit=True, error_type="rate_limit")` below the
blacklist threshold: both `mark_failure` and the nested `mark_rate_limited`
increment `consecutive_failures` and deduct health, so the event costs two
failure counts and 25 health points. -/
theorem mark_failure_rate_limit_effects (d : ℚ → ℚ) (now : ℚ)
    (em : Option String) (s : AccountStatus) (hd : d 0 = 1)
    (hlo : 25 ≤ s.health_score) (hhi : s.health_score ≤ 100)
    (hcf : s.consecutive_failures + 2 < MAX_CONSECUTIVE_FAILURES) :
    mark_failure d now true "rate_limit" em s = { s with
      consecutive_failures := s.consecutive_failures + 2,
      cooldown_multiplier := min 5 (s.cooldown_multiplier * (3/2)),
      rate_limited_until :=
        some (now + RATE_LIMIT_COOLDOWN * min 5 (s.cooldown_multiplier * (3/2))),
      failures := s.failures + 2,
      total_failures := s.total_failures + 2,
      last_used := some now,
      success_streak := 0,
      error_types := bump_error (bump_error s.error_types "rate_limit") "rate_limit",
      last_error := some "Rate limit exceeded",
      health_score := s.health_score - 25 } := by
  unfold mark_failure failure_escalation with_health_change
  dsimp only
  simp only [reduceIte]
  rw [if_neg (show ¬(("rate_limit" : String) = "auth") by decide)]
  rw [update_health_score_at_now d now _ _ hd
    (by simp only [HEALTH_PENALTY_RATE]; linarith)
    (by simp only [HEALTH_PENALTY_RATE]; linarith)]
  rw [mark_rate_limited_effects d now _ hd rfl
    (by dsimp only; simp only [HEALTH_PENALTY_RATE]; linarith)
    (by dsimp only; simp only [HEALTH_PENALTY_RATE]; linarith)
    (by dsimp only; simp only [MAX_CONSECUTIVE_FAILURES] at hcf ⊢; omega)]
  simp only [AccountStatus.mk.injEq, HEALTH_PENALTY_RATE, sub_eq_add_neg]
  norm_num
  ring

/-- C2 counterexample: on a fresh account at `now = 0` (no decay, `d = 1`),
one HTTP 429 handled through `mark_failure(is_rate_limit=True)` moves
`consecutive_failures` from 0 to 2 (not by exactly 1) and the health score
from 100 to 75 (a 25-point deduction, not 15), because `mark_failure` applies
its own increment and penalty before delegating to `mark_rate_limited`. -/
theorem rate_limit_failure_event_counterexample :
    (mark_failure (fun _ => 1) 0 true "rate_limit" none
        default_status).consecutive_failures = 2 ∧
      default_status.consecutive_failures = 0 ∧
      (mark_failure (fun _ => 1) 0 true "rate_limit" none
        default_status).health_score = 75 ∧
      default_status.health_score = 100 := by
  rw [mark_failure_rate_limit_effects (fun _ => 1) 0 none default_status rfl
    (by norm_num [default_status]) (by norm_num [default_status])
    (by simp [default_status, MAX_CONSECUTIVE_FAILURES])]
  exact ⟨rfl, rfl, by norm_num [default_status], rfl⟩

/-- C2 (amended): handling one rate-limit failure event (an HTTP 429 routed
through `mark_failure(index, is_rate_limit=True)`) increments
`consecutive_failures` by exactly 2 — once in `mark_failure` and once in the
nested `mark_rate_limited` — sets `cooldown_multiplier` to
`min(5.0, cooldown_multiplier * 1.5)`, sets `rate_limited_until` to
`now + RATE_LIMIT_COOLDOWN * (the updated) cooldown_multiplier`, and deducts
25 health points (10 in `mark_failure` plus 15 in `mark_rate_limited`, absent
clamping); in particular, for a fresh account (`cooldown_multiplier = 1.0`)
the first HTTP 429 yields `rate_limited_until = now + 22.5` minutes. -/
theorem rate_limit_failure_event (d : ℚ → ℚ) (now : ℚ) (em : Option String)
    (s : AccountStatus) (hd : d 0 = 1) (hlo : 25 ≤ s.health_score)
    (hhi : s.health_score ≤ 100)
    (hcf : s.consecutive_failures + 2 < MAX_CONSECUTIVE_FAILURES) :
    (mark_failure d now true "rate_limit" em s).consecutive_failures
        = s.consecutive_failures + 2 ∧
      (mark_failure d now true "rate_limit" em s).cooldown_multiplier
        = min 5 (s.cooldown_multiplier * (3/2)) ∧
      (mark_failure d now true "rate_limit" em s).rate_limited_until
        = some (now + RATE_LIMIT_COOLDOWN * min 5 (s.cooldown_multiplier * (3/2))) ∧
      (mark_failure d now true "rate_limit" em s).health_score
        = s.health_score - 25 ∧
      (mark_failure d now true "rate_limit" em default_status).rate_limited_until
        = some (now + 45/2) := by
  rw [mark_failure_rate_limit_effects d now em s hd hlo hhi hcf]
  refine ⟨rfl, rfl, rfl, rfl, ?_⟩
  rw [mark_failure_rate_limit_effects d now em default_status hd
    (by norm_num [default_status]) (by norm_num [default_status])
    (by simp [default_status, MAX_CONSECUTIVE_FAILURES])]
  norm_num [default_status, RATE_LIMIT_COOLDOWN]

/-- Witness for C2 at a concrete input: fresh account, `now = 0`. -/
theorem rate_limit_failure_event_witness :
    (mark_failure (fun _ => 1) 0 true "rate_limit" none
        default_status).consecutive_failures
        = default_status.consecutive_failures + 2 ∧
      (mark_failure (fun _ => 1) 0 true "rate_limit" none
        default_status).cooldown_multiplier
        = min 5 (default_status.cooldown_multiplier * (3/2)) ∧
      (mark_failure (fun _ => 1) 0 true "rate_limit" none
        default_status).rate_limited_until
        = some (0 + RATE_LIMIT_COOLDOWN
            * min 5 (default_status.cooldown_multiplier * (3/2))) ∧
      (mark_failure (fun _ => 1) 0 true "rate_limit" none
        default_status).health_score = default_status.health_score - 25 ∧
      (mark_failure (fun _ => 1) 0 true "rate_limit" none
        default_status).rate_limited_until = some (0 + 45/2) :=
  rate_limit_failure_event (fun _ => 1) 0 none default_status rfl
    (by norm_num [default_status]) (by norm_num [default_status])
    (by simp [default_status, MAX_CONSECUTIVE_FAILURES])

/-- An account whose blacklist window is still open fails the availability
gate. -/
theorem unavailable_of_blacklisted (t b : ℚ) (s : AccountStatus)
    (hb : s.blacklisted_until = some b) (ht : t < b) :
    is_account_available t s = false := by
  unfold is_account_available expiry_active
  rw [hb]
  simp [ht]

/-- The blacklist check inside `mark_rate_limited` fires as soon as the
incremented `consecutive_failures` reaches the threshold, so rate-limit
handling can stamp `blacklisted_until` too. -/
theorem mark_rate_limited_blacklists (d : ℚ → ℚ) (now : ℚ) (m : Option ℚ)
    (s : AccountStatus)
    (hcf : MAX_CONSECUTIVE_FAILURES ≤ s.consecutive_failures + 1) :
    (mark_rate_limited d now m s).blacklisted_until
      = some (now + BLACKLIST_DURATION) := by
  unfold mark_rate_limited rate_limit_blacklist_check blacklist_account
    with_health_change
  dsimp only
  rw [if_pos (show MAX_CONSECUTIVE_FAILURES ≤ s.consecutive_failures + 1 from hcf)]

/-- Effects of the non-rate-limit `mark_failure` branch that reaches the
blacklist threshold: `blacklisted_until` is stamped and the health score
pays the ordinary 10-point penalty plus the extra 50-point blacklist
penalty. -/
theorem mark_failure_blacklist_effects (d : ℚ → ℚ) (now : ℚ) (et : String)
    (em : Option String) (s : AccountStatus) (hd : d 0 = 1) (het : et ≠ "auth")
    (hlo : 60 ≤ s.health_score) (hhi : s.health_score ≤ 100)
    (hcf : MAX_CONSECUTIVE_FAILURES ≤ s.consecutive_failures + 1) :
    (mark_failure d now false et em s).blacklisted_until
        = some (now + BLACKLIST_DURATION) ∧
      (mark_failure d now false et em s).health_score
        = s.health_score - 60 := by
  unfold mark_failure failure_escalation blacklist_account with_health_change
  dsimp only
  rw [if_neg het]
  rw [if_pos (show MAX_CONSECUTIVE_FAILURES ≤ s.consecutive_failures + 1 from hcf)]
  rw [update_health_score_at_now d now _ _ hd
    (by simp only [HEALTH_PENALTY_RATE]; linarith)
    (by simp only [HEALTH_PENALTY_RATE]; linarith)]
  rw [if_neg (show ¬(false = true) by simp)]
  refine ⟨rfl, ?_⟩
  dsimp only
  rw [update_health_score_at_now d now _ _ hd
    (by simp only [HEALTH_PENALTY_RATE]; linarith)
    (by simp only [HEALTH_PENALTY_RATE]; linarith)]
  simp only [HEALTH_PENALTY_RATE]
  ring

/-- The non-rate-limit `mark_failure` below the blacklist threshold leaves
`blacklisted_until` untouched (the 3-failure branch only sets
`rate_limited_until`). -/
theorem mark_failure_below_threshold_blacklist (d : ℚ → ℚ) (now : ℚ)
    (et : String) (em : Option String) (s : AccountStatus)
    (hcf : s.consecutive_failures + 1 < MAX_CONSECUTIVE_FAILURES) :
    (mark_failure d now false et em s).blacklisted_until
      = s.blacklisted_until := by
  unfold mark_failure failure_escalation with_health_change
  dsimp only
  rw [if_neg (show ¬(false = true) by simp)]
  rw [if_neg (show ¬MAX_CONSECUTIVE_FAILURES ≤ s.consecutive_failures + 1 by omega)]
  split <;> rfl

/-- C4 counterexample: rate-limit handling does stamp `blacklisted_until`.
An account with 4 consecutive failures and no blacklist is blacklisted for
30 minutes by a single `mark_rate_limited` call, refuting the claim that
`blacklisted_until` is never set by rate-limit handling. -/
theorem blacklist_by_rate_limit_counterexample :
    ({ default_status with consecutive_failures := 4 }
        : AccountStatus).blacklisted_until = none ∧
      (mark_rate_limited (fun _ => 1) 0 none
        { default_status with consecutive_failures := 4 }).blacklisted_until
        = some 30 := by
  refine ⟨rfl, ?_⟩
  rw [mark_rate_limited_blacklists (fun _ => 1) 0 none _
    (by simp [default_status, MAX_CONSECUTIVE_FAILURES])]
  norm_num [BLACKLIST_DURATION]

/-- C4 (amended): an account becomes blacklisted whenever its
`consecutive_failures` reaches `MAX_CONSECUTIVE_FAILURES` (5) or more after a
non-rate-limit failure with no intervening success: `blacklisted_until` is
set to `now + 30` minutes, an additional fixed penalty of 50 health points is
applied on top of the ordinary failure penalty, and `is_account_available`
for that account is false from that update until `blacklisted_until` elapses.
A non-rate-limit failure below the threshold leaves `blacklisted_until`
unchanged.  However, `blacklisted_until` is not set only by non-rate-limit
failures: `mark_rate_limited` performs the same threshold check, so
rate-limit handling blacklists too once the incremented
`consecutive_failures` reaches the threshold. -/
theorem blacklist_trigger :
    (∀ (d : ℚ → ℚ) (now : ℚ) (et : String) (em : Option String)
        (s : AccountStatus) (t : ℚ),
      d 0 = 1 → et ≠ "auth" → 60 ≤ s.health_score → s.health_score ≤ 100 →
      MAX_CONSECUTIVE_FAILURES ≤ s.consecutive_failures + 1 →
      t < now + BLACKLIST_DURATION →
      (mark_failure d now false et em s).blacklisted_until
          = some (now + BLACKLIST_DURATION) ∧
        (mark_failure d now false et em s).health_score
          = s.health_score - 60 ∧
        is_account_available t (mark_failure d now false et em s) = false) ∧
    (∀ (d : ℚ → ℚ) (now : ℚ) (et : String) (em : Option String)
        (s : AccountStatus),
      s.consecutive_failures + 1 < MAX_CONSECUTIVE_FAILURES →
      (mark_failure d now false et em s).blacklisted_until
        = s.blacklisted_until) ∧
    (∀ (d : ℚ → ℚ) (now : ℚ) (m : Option ℚ) (s : AccountStatus),
      MAX_CONSECUTIVE_FAILURES ≤ s.consecutive_failures + 1 →
      (mark_rate_limited d now m s).blacklisted_until
        = some (now + BLACKLIST_DURATION)) := by
  refine ⟨?_, ?_, ?_⟩
  · intro d now et em s t hd het hlo hhi hcf ht
    obtain ⟨hblu, hhealth⟩ :=
      mark_failure_blacklist_effects d now et em s hd het hlo hhi hcf
    exact ⟨hblu, hhealth, unavailable_of_blacklisted t _ _ hblu ht⟩
  · intro d now et em s hcf
    exact mark_failure_below_threshold_blacklist d now et em s hcf
  · intro d now m s hcf
    exact mark_rate_limited_blacklists d now m s hcf

/-- Witness for C4 at a concrete input: fifth consecutive non-rate-limit
failure on a fresh-health account with 4 prior failures, checked 10 minutes
into the blacklist window. -/
theorem blacklist_trigger_witness :
    (mark_failure (fun _ => 1) 0 false "api_error" none
        { default_status with consecutive_failures := 4 }).blacklisted_until
        = some (0 + BLACKLIST_DURATION) ∧
      (mark_failure (fun _ => 1) 0 false "api_error" none
        { default_status with consecutive_failures := 4 }).health_score
        = ({ default_status with consecutive_failures := 4 }
            : AccountStatus).health_score - 60 ∧
      is_account_available 10
        (mark_failure (fun _ => 1) 0 false "api_error" none
          { default_status with consecutive_failures := 4 }) = false :=
  blacklist_trigger.1 (fun _ => 1) 0 "api_error" none
    { default_status with consecutive_failures := 4 } 10 rfl
    (by decide) (by norm_num [default_status]) (by norm_num [default_status])
    (by simp [default_status, MAX_CONSECUTIVE_FAILURES])
    (by norm_num [BLACKLIST_DURATION])

/-- `clear_blacklist` always leaves the field `None`: either it clears it or
it was already unset. -/
theorem clear_blacklist_eq (x : AccountStatus) :
    clear_blacklist x = { x with blacklisted_until := none } := by
  unfold clear_blacklist
  split
  · rfl
  · next h =>
      have hnone := Option.not_isSome_iff_eq_none.mp h
      cases x
      simp_all

/-- `success_base` with a falsy response time (`None` or `0.0`): the sample is
discarded, every other success-path field is still updated. -/
theorem success_base_untimed (now : ℚ) (rt : Option ℚ) (s : AccountStatus)
    (hrt : rt = none ∨ rt = some 0) :
    success_base now rt s = { s with
      last_success := some now,
      last_used := some now,
      failures := 0,
      consecutive_failures := 0,
      total_requests := s.total_requests + 1,
      success_streak := s.success_streak + 1,
      cooldown_multiplier := max 1 (s.cooldown_multiplier * (4/5)) } := by
  rcases hrt with rfl | rfl
  · rfl
  · unfold success_base
    dsimp only
    rw [if_pos rfl]

/-- C9: `mark_success` with `response_time` equal to `None` or `0.0` leaves
the account's `response_times` window and `avg_response_time` unchanged (the
sample is silently discarded by the Python truthiness test), while the other
success-path fields — streak, counters, timestamps, cooldown multiplier,
blacklist clearing and the health update — are still applied. -/
theorem success_discards_untimed_sample (d : ℚ → ℚ) (now : ℚ) (i : Nat)
    (rt : Option ℚ) (ss : List AccountStatus) (s s' : AccountStatus)
    (hrt : rt = none ∨ rt = some 0)
    (hget : ss.get? i = some s)
    (hget' : (mark_success d now i rt ss).get? i = some s') :
    s'.response_times = s.response_times ∧
      s'.avg_response_time = s.avg_response_time ∧
      s'.success_streak = s.success_streak + 1 ∧
      s'.consecutive_failures = 0 ∧
      s'.failures = 0 ∧
      s'.total_requests = s.total_requests + 1 ∧
      s'.last_used = some now ∧
      s'.last_success = some now ∧
      s'.blacklisted_until = none ∧
      s'.cooldown_multiplier = max 1 (s.cooldown_multiplier * (4/5)) ∧
      s'.health_score = update_health_score d now (some now) s.health_score
        (HEALTH_RECOVERY_RATE
            * calc_response_time_factor (ss.set i (success_base now rt s)) i
          + min 5 (((s.success_streak + 1 : ℕ) : ℚ) / 2)) := by
  have hlen : i < ss.length := (List.get?_eq_some.mp hget).1
  rw [mark_success, hget] at hget'
  dsimp only at hget'
  rw [List.get?_eq_getElem?,
    List.getElem?_set_eq_of_lt _ (by simpa using hlen)] at hget'
  injection hget' with hx
  subst hx
  rw [success_base_untimed now rt s hrt, clear_blacklist_eq]
  unfold with_health_change
  exact ⟨rfl, rfl, rfl, rfl, rfl, rfl, rfl, rfl, rfl, rfl, rfl⟩

/-- Witness for C9 at a concrete input: a fresh single-account pool and a
success with `response_time = None` at `now = 7`. -/
theorem success_discards_untimed_sample_witness :
    (((mark_success (fun _ => 1) 7 0 none [default_status]).get? 0).getD
        default_status).response_times = default_status.response_times ∧
      (((mark_success (fun _ => 1) 7 0 none [default_status]).get? 0).getD
        default_status).avg_response_time = default_status.avg_response_time ∧
      (((mark_success (fun _ => 1) 7 0 none [default_status]).get? 0).getD
        default_status).success_streak = default_status.success_streak + 1 ∧
      (((mark_success (fun _ => 1) 7 0 none [default_status]).get? 0).getD
        default_status).consecutive_failures = 0 ∧
      (((mark_success (fun _ => 1) 7 0 none [default_status]).get? 0).getD
        default_status).failures = 0 ∧
      (((mark_success (fun _ => 1) 7 0 none [default_status]).get? 0).getD
        default_status).total_requests = default_status.total_requests + 1 ∧
      (((mark_success (fun _ => 1) 7 0 none [default_status]).get? 0).getD
        default_status).last_used = some 7 ∧
      (((mark_success (fun _ => 1) 7 0 none [default_status]).get? 0).getD
        default_status).last_success = some 7 ∧
      (((mark_success (fun _ => 1) 7 0 none [default_status]).get? 0).getD
        default_status).blacklisted_until = none ∧
      (((mark_success (fun _ => 1) 7 0 none [default_status]).get? 0).getD
        default_status).cooldown_multiplier
        = max 1 (default_status.cooldown_multiplier * (4/5)) ∧
      (((mark_success (fun _ => 1) 7 0 none [default_status]).get? 0).getD
        default_status).health_score
        = update_health_score (fun _ => 1) 7 (some 7) default_status.health_score
            (HEALTH_RECOVERY_RATE
                * calc_response_time_factor
                    ([default_status].set 0 (success_base 7 none default_status)) 0
              + min 5 (((default_status.success_streak + 1 : ℕ) : ℚ) / 2)) :=
  success_discards_untimed_sample (fun _ => 1) 7 0 none [default_status]
    default_status _ (Or.inl rfl) rfl rfl

/-- The mutable manager state of `EnhancedAPIManager` that the selection and
retry logic reads and writes: the per-index status map (`account_status`),
`current_index`, and `last_health_check`.  The immutable account list of
`config.py` is represented by the indices `0 .. statuses.length - 1`
themselves (its entries carry only credentials, which the tracked behavior
never branches on). -/
structure ManagerState where
  statuses : List AccountStatus
  current_index : Nat
  last_health_check : ℚ
deriving DecidableEq

/-- The idle-decay penalty of `_run_health_check` for one account: 5 points
per idle day, capped at 20, applied only after 24 idle hours. -/
def decay_idle (d : ℚ → ℚ) (now : ℚ) (s : AccountStatus) : AccountStatus :=
  match s.last_used with
  | some t =>
      if 24 < (now - t) / 60 then
        with_health_change d now (-(min 20 ((now - t) / 60 / 24 * 5))) s
      else s
  | none => s

/-- The eager rate-limit expiry sweep of `_run_health_check` for one
account. -/
def clear_expired_rate_limit (now : ℚ) (s : AccountStatus) : AccountStatus :=
  match s.rate_limited_until with
  | some t => if t ≤ now then { s with rate_limited_until := none } else s
  | none => s

/-- The eager blacklist expiry sweep of `_run_health_check` for one
account. -/
def clear_expired_blacklist (now : ℚ) (s : AccountStatus) : AccountStatus :=
  match s.blacklisted_until with
  | some t => if t ≤ now then { s with blacklisted_until := none } else s
  | none => s

/-- The per-account body of `_run_health_check`: idle-decay penalty for
accounts unused for more than 24 hours, then lazy expiry of
`rate_limited_until` and `blacklisted_until`. -/
def health_check_status (d : ℚ → ℚ) (now : ℚ) (s : AccountStatus) : AccountStatus :=
  clear_expired_blacklist now (clear_expired_rate_limit now (decay_idle d now s))

/-- `EnhancedAPIManager._run_health_check`: skipped entirely when called less
than `HEALTH_CHECK_INTERVAL` (30 minutes) after the previous check, otherwise
stamps `last_health_check` and sweeps every account. -/
def run_health_check (d : ℚ → ℚ) (now : ℚ) (m : ManagerState) : ManagerState :=
  if now - m.last_health_check < HEALTH_CHECK_INTERVAL_MIN then m
  else
    { statuses := m.statuses.map (health_check_status d now),
      current_index := m.current_index,
      last_health_check := now }

/-- Strategy 1 of `switch_account`: the `for i, status in items()` loop
tracking `(best_score, best_index)`, scanning statuses in index order
starting at index `i`. -/
def select_best (now : ℚ) : List AccountStatus → Nat → ℚ × Option Nat → ℚ × Option Nat
  | [], _, acc => acc
  | s :: rest, i, acc =>
      select_best now rest (i + 1)
        (if is_account_available now s = true ∧ acc.1 < s.health_score then
          (s.health_score, some i)
         else acc)

/-- Strategy 2 of `switch_account`: the least-recently-used loop tracking
`(least_recent_time, least_recent_index)`.  The update condition mirrors the
Python `status["last_used"] is None or (least_recent_time is None or
status["last_used"] < least_recent_time)` exactly. -/
def select_lru (now : ℚ) : List AccountStatus → Nat → Option ℚ × Option Nat → Option ℚ × Option Nat
  | [], _, acc => acc
  | s :: rest, i, acc =>
      select_lru now rest (i + 1)
        (if is_account_available now s = true then
          match s.last_used, acc.1 with
          | none, _ => (none, some i)
          | some t, none => (some t, some i)
          | some t, some lrt => if t < lrt then (some t, some i) else acc
         else acc)

/-- Strategy 3 of `switch_account`: earliest `rate_limited_until` or
`blacklisted_until` expiry, tracking `(earliest_expiry, earliest_index)`;
within one iteration the rate-limit expiry is examined before the blacklist
expiry, as in the source. -/
def select_expiry : List AccountStatus → Nat → Option ℚ × Option Nat → Option ℚ × Option Nat
  | [], _, acc => acc
  | s :: rest, i, acc =>
      let acc1 :=
        match s.rate_limited_until, acc.1 with
        | some t, none => (some t, some i)
        | some t, some e => if t < e then (some t, some i) else acc
        | none, _ => acc
      let acc2 :=
        match s.blacklisted_until, acc1.1 with
        | some t, none => (some t, some i)
        | some t, some e => if t < e then (some t, some i) else acc1
        | none, _ => acc1
      select_expiry rest (i + 1) acc2

/-- Strategies 2 and 3 of `switch_account` (reached when strategy 1 finds no
available account with health above `MIN_HEALTH_FOR_PRIMARY`). -/
def switch_fallback (now : ℚ) (m1 : ManagerState) : ManagerState :=
  match (select_lru now m1.statuses 0 (none, none)).2 with
  | some j => { m1 with current_index := j }
  | none =>
      match (select_expiry m1.statuses 0 (none, none)).2 with
      | some j => { m1 with current_index := j }
      | none => m1

/-- `EnhancedAPIManager.switch_account`: run the periodic health check, then
the three-strategy cascade; returns the updated manager state (the Python
method returns `self.accounts[self.current_index]`, fully determined by
`current_index` here). -/
def switch_account (d : ℚ → ℚ) (now : ℚ) (m : ManagerState) : ManagerState :=
  let m1 := run_health_check d now m
  let best := select_best now m1.statuses 0 (-1, none)
  match best with
  | (score, some j) =>
      if MIN_HEALTH_FOR_PRIMARY < score then { m1 with current_index := j }
      else switch_fallback now m1
  | (_, none) => switch_fallback now m1

theorem with_health_change_rate_limited (d : ℚ → ℚ) (now c : ℚ) (s : AccountStatus) :
    (with_health_change d now c s).rate_limited_until = s.rate_limited_until := rfl

theorem with_health_change_blacklisted (d : ℚ → ℚ) (now c : ℚ) (s : AccountStatus) :
    (with_health_change d now c s).blacklisted_until = s.blacklisted_until := rfl

/-- The health-check sweep never changes whether an account passes the
availability gate at the same instant: decay only touches the score, and the
two expiry clears only drop timestamps that are already in the past. -/
theorem avail_congr (now : ℚ) (s' s : AccountStatus)
    (h1 : s'.rate_limited_until = s.rate_limited_until)
    (h2 : s'.blacklisted_until = s.blacklisted_until) :
    is_account_available now s' = is_account_available now s := by
  unfold is_account_available
  rw [h1, h2]

theorem decay_idle_rate_limited (d : ℚ → ℚ) (now : ℚ) (s : AccountStatus) :
    (decay_idle d now s).rate_limited_until = s.rate_limited_until := by
  unfold decay_idle
  cases s.last_used
  · rfl
  · dsimp only; split <;> rfl

theorem decay_idle_blacklisted (d : ℚ → ℚ) (now : ℚ) (s : AccountStatus) :
    (decay_idle d now s).blacklisted_until = s.blacklisted_until := by
  unfold decay_idle
  cases s.last_used
  · rfl
  · dsimp only; split <;> rfl

theorem clear_expired_rate_limit_avail (now : ℚ) (s : AccountStatus) :
    is_account_available now (clear_expired_rate_limit now s)
      = is_account_available now s := by
  unfold clear_expired_rate_limit
  cases hrlu : s.rate_limited_until with
  | none => rfl
  | some t =>
      dsimp only
      split
      · next ht =>
          simp [is_account_available, expiry_active, hrlu, not_lt.mpr ht]
      · rfl

theorem clear_expired_blacklist_avail (now : ℚ) (s : AccountStatus) :
    is_account_available now (clear_expired_blacklist now s)
      = is_account_available now s := by
  unfold clear_expired_blacklist
  cases hblu : s.blacklisted_until with
  | none => rfl
  | some t =>
      dsimp only
      split
      · next ht =>
          simp [is_account_available, expiry_active, hblu, not_lt.mpr ht]
      · rfl

/-- The health-check sweep never changes whether an account passes the
availability gate at the same instant: decay only touches the score, and the
two expiry clears only drop timestamps that are already in the past. -/
theorem health_check_status_avail (d : ℚ → ℚ) (now : ℚ) (s : AccountStatus) :
    is_account_available now (health_check_status d now s)
      = is_account_available now s := by
  unfold health_check_status
  rw [clear_expired_blacklist_avail, clear_expired_rate_limit_avail]
  exact avail_congr now _ s (decay_idle_rate_limited d now s)
    (decay_idle_blacklisted d now s)

/-- `_run_health_check` is a no-op within 30 minutes of the previous check. -/
theorem run_health_check_skip (d : ℚ → ℚ) (now : ℚ) (m : ManagerState)
    (h : now - m.last_health_check < HEALTH_CHECK_INTERVAL_MIN) :
    run_health_check d now m = m := by
  unfold run_health_check
  rw [if_pos h]

/-- `switch_account` only moves `current_index`; the status map it leaves
behind is the health-checked one. -/
theorem switch_account_statuses (d : ℚ → ℚ) (now : ℚ) (m : ManagerState) :
    (switch_account d now m).statuses = (run_health_check d now m).statuses := by
  unfold switch_account switch_fallback
  dsimp only
  rcases select_best now (run_health_check d now m).statuses 0 (-1, none) with ⟨score, _ | j⟩
  · dsimp only
    rcases (select_lru now (run_health_check d now m).statuses 0 (none, none)).2 with _ | j
    · dsimp only
      rcases (select_expiry (run_health_check d now m).statuses 0 (none, none)).2 with _ | j <;> rfl
    · rfl
  · dsimp only
    split
    · rfl
    · rcases (select_lru now (run_health_check d now m).statuses 0 (none, none)).2 with _ | j'
      · dsimp only
        rcases (select_expiry (run_health_check d now m).statuses 0 (none, none)).2 with _ | j' <;> rfl
      · rfl

/-- Any index installed by the strategy-1 fold points at an available status
of the scanned list (or was already in the accumulator). -/
theorem select_best_some (now : ℚ) :
    ∀ (ss : List AccountStatus) (i : Nat) (acc : ℚ × Option Nat) (j : Nat),
      (select_best now ss i acc).2 = some j →
      acc.2 = some j ∨ (i ≤ j ∧ ∃ s, ss.get? (j - i) = some s ∧
        is_account_available now s = true) := by
  intro ss
  induction ss with
  | nil => intro i acc j h; exact Or.inl h
  | cons s rest ih =>
      intro i acc j h
      rw [select_best] at h
      rcases ih (i + 1) _ j h with hacc | ⟨hij, s', hs', havail⟩
      · revert hacc
        split
        · next hcond =>
            intro hacc
            dsimp only at hacc
            injection hacc with hji
            subst hji
            exact Or.inr ⟨le_refl _, s, by rw [Nat.sub_self]; rfl, hcond.1⟩
        · exact fun hacc => Or.inl hacc
      · refine Or.inr ⟨le_trans (Nat.le_succ i) hij, s', ?_, havail⟩
        have hji : j - i = (j - (i + 1)) + 1 := by omega
        rw [hji]
        exact hs'

/-- The strategy-1 fold never reports a score above a bound respected by all
available statuses and by the accumulator. -/
theorem select_best_score_le (now b : ℚ) :
    ∀ (ss : List AccountStatus) (i : Nat) (acc : ℚ × Option Nat),
      (∀ s ∈ ss, is_account_available now s = true → s.health_score ≤ b) →
      acc.1 ≤ b → (select_best now ss i acc).1 ≤ b := by
  intro ss
  induction ss with
  | nil => intro i acc _ hacc; exact hacc
  | cons s rest ih =>
      intro i acc hss hacc
      rw [select_best]
      refine ih (i + 1) _ (fun x hx => hss x (List.mem_cons_of_mem s hx)) ?_
      split
      · next hcond => exact hss s (List.mem_cons_self s rest) hcond.1
      · exact hacc

/-- The strategy-2 fold ends with an index whenever some scanned status is
available (or one was already tracked); the invariant
`least_recent_time set → least_recent_index set` rules the accumulator. -/
theorem select_lru_progress (now : ℚ) :
    ∀ (ss : List AccountStatus) (i : Nat) (acc : Option ℚ × Option Nat),
      (acc.1 ≠ none → acc.2 ≠ none) →
      ((∃ s ∈ ss, is_account_available now s = true) ∨ acc.2 ≠ none) →
      (select_lru now ss i acc).2 ≠ none := by
  intro ss
  induction ss with
  | nil =>
      intro i acc hinv hdisj
      rcases hdisj with ⟨s, hs, _⟩ | h2
      · exact absurd hs (List.not_mem_nil s)
      · exact h2
  | cons s rest ih =>
      intro i acc hinv hdisj
      rw [select_lru]
      by_cases havail : is_account_available now s = true
      · rw [if_pos havail]
        rcases hlu : s.last_used with _ | t
        · exact ih (i + 1) _ (by intro _; simp) (Or.inr (by simp))
        · rcases hacc1 : acc.1 with _ | lrt
          · exact ih (i + 1) _ (by intro _; simp) (Or.inr (by simp))
          · dsimp only
            split
            · exact ih (i + 1) _ (by intro _; simp) (Or.inr (by simp))
            · refine ih (i + 1) acc hinv (Or.inr (hinv ?_))
              rw [hacc1]
              simp
      · rw [if_neg havail]
        refine ih (i + 1) acc hinv ?_
        rcases hdisj with ⟨x, hx, hxa⟩ | h2
        · rcases List.mem_cons.mp hx with rfl | hxr
          · exact absurd hxa havail
          · exact Or.inl ⟨x, hxr, hxa⟩
        · exact Or.inr h2

/-- Any index installed by the strategy-2 fold points at an available status
of the scanned list (or was already in the accumulator). -/
theorem select_lru_some (now : ℚ) :
    ∀ (ss : List AccountStatus) (i : Nat) (acc : Option ℚ × Option Nat) (j : Nat),
      (select_lru now ss i acc).2 = some j →
      acc.2 = some j ∨ (i ≤ j ∧ ∃ s, ss.get? (j - i) = some s ∧
        is_account_available now s = true) := by
  intro ss
  induction ss with
  | nil => intro i acc j h; exact Or.inl h
  | cons s rest ih =>
      intro i acc j h
      rw [select_lru] at h
      rcases ih (i + 1) _ j h with hacc | ⟨hij, s', hs', havail⟩
      · revert hacc
        by_cases havail : is_account_available now s = true
        · rw [if_pos havail]
          rcases s.last_used with _ | t
          · dsimp only
            intro hacc
            injection hacc with hji
            subst hji
            exact Or.inr ⟨le_refl _, s, by rw [Nat.sub_self]; rfl, havail⟩
          · rcases acc.1 with _ | lrt
            · dsimp only
              intro hacc
              injection hacc with hji
              subst hji
              exact Or.inr ⟨le_refl _, s, by rw [Nat.sub_self]; rfl, havail⟩
            · dsimp only
              split
              · intro hacc
                injection hacc with hji
                subst hji
                exact Or.inr ⟨le_refl _, s, by rw [Nat.sub_self]; rfl, havail⟩
              · exact fun hacc => Or.inl hacc
        · rw [if_neg havail]
          exact fun hacc => Or.inl hacc
      · refine Or.inr ⟨le_trans (Nat.le_succ i) hij, s', ?_, havail⟩
        have hji : j - i = (j - (i + 1)) + 1 := by omega
        rw [hji]
        exact hs'

theorem run_health_check_preserves_avail (d : ℚ → ℚ) (now : ℚ) (m : ManagerState)
    (hex : ∃ s ∈ m.statuses, is_account_available now s = true) :
    ∃ s ∈ (run_health_check d now m).statuses,
      is_account_available now s = true := by
  obtain ⟨s, hs, ha⟩ := hex
  unfold run_health_check
  split
  · exact ⟨s, hs, ha⟩
  · exact ⟨health_check_status d now s, List.mem_map_of_mem _ hs,
      by rw [health_check_status_avail]; exact ha⟩

/-- Strategies 2 and 3 of `switch_account` land on an available account
whenever at least one account in the (already health-checked) pool is
available: the least-recently-used scan always selects one. -/
theorem switch_fallback_avail (now : ℚ) (m1 : ManagerState)
    (hex : ∃ s ∈ m1.statuses, is_account_available now s = true) :
    ∃ s', (switch_fallback now m1).statuses.get?
        ((switch_fallback now m1).current_index) = some s' ∧
      is_account_available now s' = true := by
  have hne := select_lru_progress now m1.statuses 0 (none, none)
    (fun h => absurd rfl h) (Or.inl hex)
  rcases ho : (select_lru now m1.statuses 0 (none, none)).2 with _ | j
  · exact absurd ho hne
  · rcases select_lru_some now m1.statuses 0 (none, none) j ho with hacc | ⟨_, s', hs', ha⟩
    · exact absurd hacc (by simp)
    · unfold switch_fallback
      rw [ho]
      dsimp only
      rw [Nat.sub_zero] at hs'
      exact ⟨s', hs', ha⟩

theorem select_best_pair_first (now : ℚ) (s0 s1 : AccountStatus)
    (h0 : is_account_available now s0 = true)
    (hpos : (-1 : ℚ) < s0.health_score)
    (hle : s1.health_score ≤ s0.health_score) :
    select_best now [s0, s1] 0 (-1, none) = (s0.health_score, some 0) := by
  rw [select_best]
  rw [if_pos (show is_account_available now s0 = true ∧
    ((-1 : ℚ), (none : Option Nat)).1 < s0.health_score from ⟨h0, hpos⟩)]
  rw [select_best]
  rw [if_neg (show ¬(is_account_available now s1 = true ∧
    ((s0.health_score, some 0) : ℚ × Option Nat).1 < s1.health_score) from
    fun hc => absurd hc.2 (not_lt.mpr hle))]
  rw [select_best]

theorem select_best_pair_second (now : ℚ) (s0 s1 : AccountStatus)
    (h1 : is_account_available now s1 = true)
    (hpos : (-1 : ℚ) < s0.health_score)
    (h0 : is_account_available now s0 = true)
    (hlt : s0.health_score < s1.health_score) :
    select_best now [s0, s1] 0 (-1, none) = (s1.health_score, some 1) := by
  rw [select_best]
  rw [if_pos (show is_account_available now s0 = true ∧
    ((-1 : ℚ), (none : Option Nat)).1 < s0.health_score from ⟨h0, hpos⟩)]
  rw [select_best]
  rw [if_pos (show is_account_available now s1 = true ∧
    ((s0.health_score, some 0) : ℚ × Option Nat).1 < s1.health_score from ⟨h1, hlt⟩)]
  rw [select_best]

/-- C3: whenever at least one account is available, `switch_account` selects
an available account, never a rate-limited or blacklisted one; and in a
two-account pool whose health scores are 80 and 40 with both accounts
available (and no due health-check sweep), the selector picks the account
with score 80, whichever slot it sits in, since 80 exceeds
`MIN_HEALTH_FOR_PRIMARY`. -/
theorem selector_returns_available :
    (∀ (d : ℚ → ℚ) (now : ℚ) (m : ManagerState),
      (∃ s ∈ m.statuses, is_account_available now s = true) →
      ∃ s', (switch_account d now m).statuses.get?
          ((switch_account d now m).current_index) = some s' ∧
        is_account_available now s' = true) ∧
    (∀ (d : ℚ → ℚ) (now : ℚ) (m : ManagerState) (s0 s1 : AccountStatus),
      m.statuses = [s0, s1] →
      now - m.last_health_check < HEALTH_CHECK_INTERVAL_MIN →
      is_account_available now s0 = true → is_account_available now s1 = true →
      s0.health_score = 80 → s1.health_score = 40 →
      (switch_account d now m).current_index = 0) ∧
    (∀ (d : ℚ → ℚ) (now : ℚ) (m : ManagerState) (s0 s1 : AccountStatus),
      m.statuses = [s0, s1] →
      now - m.last_health_check < HEALTH_CHECK_INTERVAL_MIN →
      is_account_available now s0 = true → is_account_available now s1 = true →
      s0.health_score = 40 → s1.health_score = 80 →
      (switch_account d now m).current_index = 1) := by
  refine ⟨?_, ?_, ?_⟩
  · intro d now m hex
    have hex1 := run_health_check_preserves_avail d now m hex
    unfold switch_account
    dsimp only
    rcases hb : select_best now (run_health_check d now m).statuses 0 (-1, none)
      with ⟨score, _ | j⟩
    · exact switch_fallback_avail now _ hex1
    · dsimp only
      split
      · have h2 : (select_best now (run_health_check d now m).statuses 0
            (-1, none)).2 = some j := by rw [hb]
        rcases select_best_some now _ 0 (-1, none) j h2 with hacc | ⟨_, s', hs', ha⟩
        · exact absurd hacc (by simp)
        · rw [Nat.sub_zero] at hs'
          exact ⟨s', hs', ha⟩
      · exact switch_fallback_avail now _ hex1
  · intro d now m s0 s1 hss hskip h0 h1 hh0 hh1
    unfold switch_account
    rw [run_health_check_skip d now m hskip]
    dsimp only
    rw [hss]
    rw [select_best_pair_first now s0 s1 h0 (by rw [hh0]; norm_num)
      (by rw [hh0, hh1]; norm_num)]
    dsimp only
    rw [if_pos (show MIN_HEALTH_FOR_PRIMARY < s0.health_score by
      rw [hh0]; norm_num [MIN_HEALTH_FOR_PRIMARY])]
  · intro d now m s0 s1 hss hskip h0 h1 hh0 hh1
    unfold switch_account
    rw [run_health_check_skip d now m hskip]
    dsimp only
    rw [hss]
    rw [select_best_pair_second now s0 s1 h1 (by rw [hh0]; norm_num) h0
      (by rw [hh0, hh1]; norm_num)]
    dsimp only
    rw [if_pos (show MIN_HEALTH_FOR_PRIMARY < s1.health_score by
      rw [hh1]; norm_num [MIN_HEALTH_FOR_PRIMARY])]

/-- Witness for C3 at a concrete input: a pool with a score-80 account at
index 0 and a score-40 account at index 1, both available. -/
theorem selector_returns_available_witness :
    (switch_account (fun _ => 1) 0
      { statuses := [{ default_status with health_score := 80 },
          { default_status with health_score := 40 }],
        current_index := 1, last_health_check := 0 }).current_index = 0 :=
  selector_returns_available.2.1 (fun _ => 1) 0
    { statuses := [{ default_status with health_score := 80 },
        { default_status with health_score := 40 }],
      current_index := 1, last_health_check := 0 }
    { default_status with health_score := 80 }
    { default_status with health_score := 40 }
    rfl (by norm_num [HEALTH_CHECK_INTERVAL_MIN]) rfl rfl rfl rfl

/-- Characterization of the strategy-2 fold started from a tracked pair
`(some t0, some j0)` over a pool whose available accounts all carry a
timestamp: the tracked time only decreases, the result is a lower bound on
every available timestamp, and it either keeps the initial pair or lands on
the first strictly-smaller timestamp of the scanned segment. -/
theorem select_lru_gen (now : ℚ) :
    ∀ (ss : List AccountStatus) (i : Nat) (t0 : ℚ) (j0 : Nat),
      (∀ s ∈ ss, is_account_available now s = true → s.last_used ≠ none) →
      ∃ t j, select_lru now ss i (some t0, some j0) = (some t, some j) ∧
        t ≤ t0 ∧
        (∀ k s u, ss.get? k = some s → is_account_available now s = true →
          s.last_used = some u → t ≤ u) ∧
        ((t = t0 ∧ j = j0) ∨
          (∃ p s, j = i + p ∧ ss.get? p = some s ∧
            is_account_available now s = true ∧ s.last_used = some t ∧ t < t0 ∧
            (∀ q s' u, q < p → ss.get? q = some s' →
              is_account_available now s' = true → s'.last_used = some u →
              t < u))) := by
  intro ss
  induction ss with
  | nil =>
      intro i t0 j0 _
      refine ⟨t0, j0, rfl, le_refl t0, ?_, Or.inl ⟨rfl, rfl⟩⟩
      intro k s u hk
      simp at hk
  | cons y rest ih =>
      intro i t0 j0 hsome
      have hrest : ∀ s ∈ rest, is_account_available now s = true →
          s.last_used ≠ none :=
        fun s hs => hsome s (List.mem_cons_of_mem y hs)
      rw [select_lru]
      by_cases hav : is_account_available now y = true
      · rcases hlu : y.last_used with _ | u
        · exact absurd hlu (hsome y (List.mem_cons_self y rest) hav)
        · rw [if_pos hav]
          dsimp only
          by_cases hut : u < t0
          · rw [if_pos hut]
            obtain ⟨t, j, heq, hle, hlb, hcase⟩ := ih (i + 1) u i hrest
            refine ⟨t, j, heq, le_of_lt (lt_of_le_of_lt hle hut), ?_, ?_⟩
            · intro k s u' hk hsa hslu
              cases k with
              | zero =>
                  injection hk with hk
                  subst hk
                  rw [hlu] at hslu
                  injection hslu with hslu
                  subst hslu
                  exact hle
              | succ k => exact hlb k s u' hk hsa hslu
            · rcases hcase with ⟨ht, hj⟩ | ⟨p, s, hj, hget, hsa, hslu, hlt, hstrict⟩
              · subst ht
                subst hj
                refine Or.inr ⟨0, y, by omega, rfl, hav, ?_, hut, ?_⟩
                · rw [hlu]
                · intro q s' u' hq
                  omega
              · refine Or.inr ⟨p + 1, s, by omega, hget, hsa, hslu,
                  lt_trans hlt hut, ?_⟩
                intro q s' u' hq hq' hsa' hslu'
                cases q with
                | zero =>
                    injection hq' with hq'
                    subst hq'
                    rw [hlu] at hslu'
                    injection hslu' with hslu'
                    subst hslu'
                    exact hlt
                | succ q => exact hstrict q s' u' (by omega) hq' hsa' hslu'
          · rw [if_neg hut]
            obtain ⟨t, j, heq, hle, hlb, hcase⟩ := ih (i + 1) t0 j0 hrest
            have ht0u : t0 ≤ u := not_lt.mp hut
            refine ⟨t, j, heq, hle, ?_, ?_⟩
            · intro k s u' hk hsa hslu
              cases k with
              | zero =>
                  injection hk with hk
                  subst hk
                  rw [hlu] at hslu
                  injection hslu with hslu
                  subst hslu
                  exact le_trans hle ht0u
              | succ k => exact hlb k s u' hk hsa hslu
            · rcases hcase with ⟨ht, hj⟩ | ⟨p, s, hj, hget, hsa, hslu, hlt, hstrict⟩
              · exact Or.inl ⟨ht, hj⟩
              · refine Or.inr ⟨p + 1, s, by omega, hget, hsa, hslu, hlt, ?_⟩
                intro q s' u' hq hq' hsa' hslu'
                cases q with
                | zero =>
                    injection hq' with hq'
                    subst hq'
                    rw [hlu] at hslu'
                    injection hslu' with hslu'
                    subst hslu'
                    exact lt_of_lt_of_le hlt ht0u
                | succ q => exact hstrict q s' u' (by omega) hq' hsa' hslu'
      · rw [if_neg hav]
        obtain ⟨t, j, heq, hle, hlb, hcase⟩ := ih (i + 1) t0 j0 hrest
        refine ⟨t, j, heq, hle, ?_, ?_⟩
        · intro k s u' hk hsa hslu
          cases k with
          | zero =>
              injection hk with hk
              subst hk
              exact absurd hsa hav
          | succ k => exact hlb k s u' hk hsa hslu
        · rcases hcase with ⟨ht, hj⟩ | ⟨p, s, hj, hget, hsa, hslu, hlt, hstrict⟩
          · exact Or.inl ⟨ht, hj⟩
          · refine Or.inr ⟨p + 1, s, by omega, hget, hsa, hslu, hlt, ?_⟩
            intro q s' u' hq hq' hsa' hslu'
            cases q with
            | zero =>
                injection hq' with hq'
                subst hq'
                exact absurd hsa' hav
            | succ q => exact hstrict q s' u' (by omega) hq' hsa' hslu'

/-- The strategy-2 fold from the empty accumulator, over a pool whose
available accounts all carry a `last_used` timestamp: it selects an available
account holding the minimum timestamp, and among equal timestamps the one
with the lowest index. -/
theorem select_lru_min (now : ℚ) :
    ∀ (ss : List AccountStatus) (i : Nat),
      (∀ s ∈ ss, is_account_available now s = true → s.last_used ≠ none) →
      (∃ s ∈ ss, is_account_available now s = true) →
      ∃ t j p s, select_lru now ss i (none, none) = (some t, some j) ∧
        j = i + p ∧ ss.get? p = some s ∧ is_account_available now s = true ∧
        s.last_used = some t ∧
        (∀ k s' u, ss.get? k = some s' → is_account_available now s' = true →
          s'.last_used = some u → t ≤ u ∧ (u = t → p ≤ k)) := by
  intro ss
  induction ss with
  | nil =>
      intro i _ hex
      obtain ⟨s, hs, _⟩ := hex
      exact absurd hs (List.not_mem_nil s)
  | cons y rest ih =>
      intro i hsome hex
      have hrest : ∀ s ∈ rest, is_account_available now s = true →
          s.last_used ≠ none :=
        fun s hs => hsome s (List.mem_cons_of_mem y hs)
      rw [select_lru]
      by_cases hav : is_account_available now y = true
      · rcases hlu : y.last_used with _ | u
        · exact absurd hlu (hsome y (List.mem_cons_self y rest) hav)
        · rw [if_pos hav]
          dsimp only
          obtain ⟨t, j, heq, hle, hlb, hcase⟩ := select_lru_gen now rest (i + 1) u i hrest
          rcases hcase with ⟨ht, hj⟩ | ⟨p, s, hj, hget, hsa, hslu, hlt, hstrict⟩
          · subst ht
            refine ⟨t, j, 0, y, heq, by omega, rfl, hav, hlu, ?_⟩
            intro k s' u' hk hsa' hslu'
            cases k with
            | zero =>
                injection hk with hk
                subst hk
                rw [hlu] at hslu'
                injection hslu' with hslu'
                subst hslu'
                exact ⟨le_refl t, fun _ => Nat.zero_le 0⟩
            | succ k =>
                exact ⟨hlb k s' u' hk hsa' hslu', fun _ => Nat.zero_le (k + 1)⟩
          · refine ⟨t, j, p + 1, s, heq, by omega, hget, hsa, hslu, ?_⟩
            intro k s' u' hk hsa' hslu'
            cases k with
            | zero =>
                injection hk with hk
                subst hk
                rw [hlu] at hslu'
                injection hslu' with hslu'
                subst hslu'
                exact ⟨hle, fun heqt => absurd heqt (ne_of_gt hlt)⟩
            | succ k =>
                refine ⟨hlb k s' u' hk hsa' hslu', ?_⟩
                intro heqt
                by_contra hkp
                have hkp' : k < p := by omega
                exact absurd heqt (ne_of_gt (hstrict k s' u' hkp' hk hsa' hslu'))
      · rw [if_neg hav]
        have hex' : ∃ s ∈ rest, is_account_available now s = true := by
          obtain ⟨s, hs, ha⟩ := hex
          rcases List.mem_cons.mp hs with rfl | hsr
          · exact absurd ha hav
          · exact ⟨s, hsr, ha⟩
        obtain ⟨t, j, p, s, heq, hj, hget, hsa, hslu, hbounds⟩ := ih (i + 1) hrest hex'
        refine ⟨t, j, p + 1, s, heq, by omega, hget, hsa, hslu, ?_⟩
        intro k s' u' hk hsa' hslu'
        cases k with
        | zero =>
            injection hk with hk
            subst hk
            exact absurd hsa' hav
        | succ k =>
            obtain ⟨hb, htie⟩ := hbounds k s' u' hk hsa' hslu'
            exact ⟨hb, fun heqt => by have := htie heqt; omega⟩

/-- C5 counterexample: both accounts available with health 40 (below
`MIN_HEALTH_FOR_PRIMARY`), account 0 never used (`last_used = None`),
account 1 last used at time 5.  The claim predicts account 0 (null counts as
least recently used) with its `last_used` then set to `now = 100`; the code
picks account 1 — the null tracked `least_recent_time` lets the later
account override the never-used one — and leaves every `last_used`
untouched. -/
theorem lru_null_counterexample :
    (switch_account (fun _ => 1) 100
        { statuses := [{ default_status with health_score := 40, last_used := none },
            { default_status with health_score := 40, last_used := some 5 }],
          current_index := 0, last_health_check := 100 }).current_index = 1 ∧
      (switch_account (fun _ => 1) 100
        { statuses := [{ default_status with health_score := 40, last_used := none },
            { default_status with health_score := 40, last_used := some 5 }],
          current_index := 0, last_health_check := 100 }).statuses
        = [{ default_status with health_score := 40, last_used := none },
            { default_status with health_score := 40, last_used := some 5 }] := by
  have ha : is_account_available 100
      ({ default_status with health_score := 40, last_used := none }
        : AccountStatus) = true := by
    simp [is_account_available, expiry_active, default_status]
  have hb : is_account_available 100
      ({ default_status with health_score := 40, last_used := some 5 }
        : AccountStatus) = true := by
    simp [is_account_available, expiry_active, default_status]
  have hsel : select_lru 100
      [{ default_status with health_score := 40, last_used := none },
        { default_status with health_score := 40, last_used := some 5 }] 0
      (none, none) = (some 5, some 1) := by
    rw [select_lru, if_pos ha]
    rw [select_lru, if_pos hb]
    rw [select_lru]
  constructor
  · unfold switch_account
    rw [run_health_check_skip _ _ _ (by norm_num [HEALTH_CHECK_INTERVAL_MIN])]
    dsimp only
    rw [select_best_pair_first 100 _ _ ha (by norm_num) (by norm_num)]
    dsimp only
    rw [if_neg (show ¬MIN_HEALTH_FOR_PRIMARY <
      ({ default_status with health_score := 40, last_used := none }
        : AccountStatus).health_score by norm_num [MIN_HEALTH_FOR_PRIMARY])]
    unfold switch_fallback
    rw [show (select_lru 100
      [{ default_status with health_score := 40, last_used := none },
        { default_status with health_score := 40, last_used := some 5 }] 0
      (none, none)).2 = some 1 from by rw [hsel]]
  · rw [switch_account_statuses,
      run_health_check_skip _ _ _ (by norm_num [HEALTH_CHECK_INTERVAL_MIN])]

/-- C5 (amended): when no available account's health score exceeds
`MIN_HEALTH_FOR_PRIMARY` (and no health-check sweep is due), and every
available account has a non-null `last_used`, the selector picks among
available accounts the one with the smallest `last_used`, breaking ties by
lowest account index; the selection changes only `current_index` and in
particular does not set the selected account's `last_used` (no status field
is written by selection).  (When an available account has `last_used =
None`, the code does not treat it as least recently used: the null tracked
time lets any later available account override it — see the
counterexample.) -/
theorem lru_fallback_selection (d : ℚ → ℚ) (now : ℚ) (m : ManagerState)
    (hskip : now - m.last_health_check < HEALTH_CHECK_INTERVAL_MIN)
    (hlow : ∀ s ∈ m.statuses, is_account_available now s = true →
      s.health_score ≤ MIN_HEALTH_FOR_PRIMARY)
    (hsome : ∀ s ∈ m.statuses, is_account_available now s = true →
      s.last_used ≠ none)
    (hex : ∃ s ∈ m.statuses, is_account_available now s = true) :
    ∃ p s t, (switch_account d now m).current_index = p ∧
      m.statuses.get? p = some s ∧ is_account_available now s = true ∧
      s.last_used = some t ∧
      (∀ k s' u, m.statuses.get? k = some s' →
        is_account_available now s' = true → s'.last_used = some u →
        t ≤ u ∧ (u = t → p ≤ k)) ∧
      (switch_account d now m).statuses = m.statuses := by
  have hstat : (switch_account d now m).statuses = m.statuses := by
    rw [switch_account_statuses, run_health_check_skip d now m hskip]
  obtain ⟨t, j, p, s, heq, hj, hget, hsa, hslu, hbounds⟩ :=
    select_lru_min now m.statuses 0 hsome hex
  have hfb : (switch_fallback now m).current_index = p := by
    unfold switch_fallback
    rw [show (select_lru now m.statuses 0 (none, none)).2 = some j from by
      rw [heq]]
    dsimp only
    omega
  refine ⟨p, s, t, ?_, hget, hsa, hslu, hbounds, hstat⟩
  unfold switch_account
  rw [run_health_check_skip d now m hskip]
  dsimp only
  rcases hb : select_best now m.statuses 0 (-1, none) with ⟨score, jo⟩
  have hscore : score ≤ MIN_HEALTH_FOR_PRIMARY := by
    have hs := select_best_score_le now MIN_HEALTH_FOR_PRIMARY m.statuses 0
      (-1, none) hlow (by norm_num [MIN_HEALTH_FOR_PRIMARY])
    rw [hb] at hs
    exact hs
  cases jo with
  | none => exact hfb
  | some j' =>
      dsimp only
      rw [if_neg (not_lt.mpr hscore)]
      exact hfb

/-- Witness for C5 at a concrete input: two available accounts with health
40, last used at times 9 and 5 — the fallback must pick index 1. -/
theorem lru_fallback_selection_witness :
    ∃ p s t, (switch_account (fun _ => 1) 10
        { statuses := [{ default_status with health_score := 40, last_used := some 9 },
            { default_status with health_score := 40, last_used := some 5 }],
          current_index := 0, last_health_check := 10 }).current_index = p ∧
      [{ default_status with health_score := 40, last_used := some 9 },
        { default_status with health_score := 40, last_used := some 5 }].get? p
        = some s ∧ is_account_available 10 s = true ∧
      s.last_used = some t ∧
      (∀ k s' u,
        [{ default_status with health_score := 40, last_used := some 9 },
          { default_status with health_score := 40, last_used := some 5 }].get? k
          = some s' →
        is_account_available 10 s' = true → s'.last_used = some u →
        t ≤ u ∧ (u = t → p ≤ k)) ∧
      (switch_account (fun _ => 1) 10
        { statuses := [{ default_status with health_score := 40, last_used := some 9 },
            { default_status with health_score := 40, last_used := some 5 }],
          current_index := 0, last_health_check := 10 }).statuses
        = [{ default_status with health_score := 40, last_used := some 9 },
            { default_status with health_score := 40, last_used := some 5 }] :=
  lru_fallback_selection (fun _ => 1) 10
    { statuses := [{ default_status with health_score := 40, last_used := some 9 },
        { default_status with health_score := 40, last_used := some 5 }],
      current_index := 0, last_health_check := 10 }
    (by norm_num [HEALTH_CHECK_INTERVAL_MIN])
    (by
      intro s hs ha
      rcases List.mem_cons.mp hs with rfl | hs2
      · norm_num [MIN_HEALTH_FOR_PRIMARY]
      · rcases List.mem_cons.mp hs2 with rfl | hs3
        · norm_num [MIN_HEALTH_FOR_PRIMARY]
        · exact absurd hs3 (List.not_mem_nil s))
    (by
      intro s hs ha
      rcases List.mem_cons.mp hs with rfl | hs2
      · simp
      · rcases List.mem_cons.mp hs2 with rfl | hs3
        · simp
        · exact absurd hs3 (List.not_mem_nil s))
    ⟨{ default_status with health_score := 40, last_used := some 9 },
      List.mem_cons_self _ _,
      by simp [is_account_available, expiry_active, default_status]⟩

/-- Classification of one outbound HTTP attempt, as `run` distinguishes
outcomes: status 200 (with the measured request time), 429/503, 401/403,
other status codes, and the three exception handlers. -/
inductive Outcome where
  | ok (response_time : ℚ)
  | rate_limited
  | auth
  | api_error
  | timeout
  | connection
  | unexpected
deriving DecidableEq

/-- The `(is_rate_limit, error_type)` pair `run` hands to `mark_failure` for
each non-success outcome (`ok` never reaches `mark_failure`). -/
def outcome_class : Outcome → Bool × String
  | .ok _ => (false, "unknown")
  | .rate_limited => (true, "rate_limit")
  | .auth => (false, "auth")
  | .api_error => (false, "api_error")
  | .timeout => (false, "timeout")
  | .connection => (false, "connection")
  | .unexpected => (false, "unknown")

/-- What `run` can hand back to its caller: the decoded success payload
(identified by the attempt number and the account index that served it), or
the final failure dictionary `{"error": ..., "retry_after": ...,
"accounts_tried": ...}`. -/
inductive RunResult where
  | success (attempt : Nat) (account : Nat)
  | failure_report (error : String) (retry_after : Nat) (accounts_tried : List Nat)
deriving DecidableEq

/-- `EnhancedAPIManager.run`, as a fuel-indexed step function.  `oracle k`
is the outcome of the `k`-th outbound request (the network is external
input); `tried` is the `tried_accounts` set as an insertion-ordered list;
`retries` is the loop counter; `None` means the fuel ran out before the loop
returned — the loop body itself has no other exit.  Backoff sleeps have no
effect on the tracked state and are dropped; the error-message strings
passed to `mark_failure` (built from response bodies) are modelled as
absent, which only affects the stored `last_error` text. -/
def run_loop (d : ℚ → ℚ) (now : ℚ) (oracle : Nat → Outcome) :
    Nat → ManagerState → List Nat → Nat → Nat → Option (RunResult × ManagerState)
  | 0, _, _, _, _ => none
  | fuel + 1, m, tried, retries, k =>
      if retries < RETRY_LIMIT then
        if tried.contains m.current_index = true ∧
            tried.length < m.statuses.length then
          run_loop d now oracle fuel (switch_account d now m) tried retries k
        else
          let tried1 :=
            if tried.contains m.current_index = true then tried
            else tried ++ [m.current_index]
          match oracle k with
          | .ok rt =>
              some (RunResult.success k m.current_index,
                { m with
                    statuses := mark_success d now m.current_index (some rt) m.statuses })
          | oc =>
              let cls := outcome_class oc
              let m1 := { m with
                  statuses := set_at m.statuses m.current_index
                    (mark_failure d now cls.1 cls.2 none) }
              run_loop d now oracle fuel (switch_account d now m1) tried1
                (retries + 1) (k + 1)
      else
        some (RunResult.failure_report "All API accounts failed" 60 tried, m)

/-- C7 (amended): whenever the retry loop of `run` returns, its result is
either the decoded success payload or — after exhausting `RETRY_LIMIT`
attempts — the failure dictionary with error string
"All API accounts failed" (note the capitalization, not
"all accounts failed"), `retry_after = 60`, and `accounts_tried` the
accumulated tried-account list; per-attempt rate-limit, auth, timeout,
connection and other API errors are absorbed by the loop and never surfaced
mid-loop.  (The loop may also fail to terminate, see the busy-loop
divergence of the tried-account re-selection.) -/
theorem run_result_shape (d : ℚ → ℚ) (now : ℚ) (oracle : Nat → Outcome) :
    ∀ (fuel : Nat) (m : ManagerState) (tried : List Nat) (retries k : Nat)
      (r : RunResult),
      (run_loop d now oracle fuel m tried retries k).map Prod.fst = some r →
      (∃ a i, r = RunResult.success a i) ∨
      ∃ tr, r = RunResult.failure_report "All API accounts failed" 60 tr := by
  intro fuel
  induction fuel with
  | zero =>
      intro m tried retries k r h
      simp [run_loop] at h
  | succ fuel ih =>
      intro m tried retries k r h
      rw [run_loop] at h
      by_cases h1 : retries < RETRY_LIMIT
      · rw [if_pos h1] at h
        by_cases h2 : tried.contains m.current_index = true ∧
            tried.length < m.statuses.length
        · rw [if_pos h2] at h
          exact ih _ _ _ _ _ h
        · rw [if_neg h2] at h
          cases hoc : oracle k with
          | ok rt =>
              rw [hoc] at h
              injection h with h
              exact Or.inl ⟨k, m.current_index, h.symm⟩
          | rate_limited => rw [hoc] at h; exact ih _ _ _ _ _ h
          | auth => rw [hoc] at h; exact ih _ _ _ _ _ h
          | api_error => rw [hoc] at h; exact ih _ _ _ _ _ h
          | timeout => rw [hoc] at h; exact ih _ _ _ _ _ h
          | connection => rw [hoc] at h; exact ih _ _ _ _ _ h
          | unexpected => rw [hoc] at h; exact ih _ _ _ _ _ h
      · rw [if_neg h1] at h
        injection h with h
        exact Or.inr ⟨tried, h.symm⟩

/-- C10: `run` issues its first attempt on whatever `current_index`
designates, with no availability or selection check: for every manager state
a first-request success is served by `current_index`, and in particular
there is a state whose `current_index` account is unavailable
(rate-limited) while the first outbound request still uses it. -/
theorem first_attempt_uses_current_index :
    (∀ (d : ℚ → ℚ) (now rt : ℚ) (m : ManagerState),
      (run_loop d now (fun _ => Outcome.ok rt) 1 m [] 0 0).map Prod.fst
        = some (RunResult.success 0 m.current_index)) ∧
    (is_account_available 0
        ({ default_status with rate_limited_until := some 10 }
          : AccountStatus) = false ∧
      (run_loop (fun _ => 1) 0 (fun _ => Outcome.ok 1) 1
        { statuses := [{ default_status with rate_limited_until := some 10 }],
          current_index := 0, last_health_check := 0 } [] 0 0).map Prod.fst
        = some (RunResult.success 0 0)) := by
  have hgen : ∀ (d : ℚ → ℚ) (now rt : ℚ) (m : ManagerState),
      (run_loop d now (fun _ => Outcome.ok rt) 1 m [] 0 0).map Prod.fst
        = some (RunResult.success 0 m.current_index) := by
    intro d now rt m
    rw [run_loop, if_pos (by norm_num [RETRY_LIMIT]), if_neg (by simp)]
    rfl
  refine ⟨hgen, ?_, hgen (fun _ => 1) 0 1 _⟩
  simp [is_account_available, expiry_active]

/-- The busy-loop guard of `run` has no bound: when the current account is
already in `tried`, fewer accounts than the pool size have been tried, and
`switch_account` hands back the same state, the loop re-selects forever
without counting an attempt — for every fuel the loop is still running. -/
theorem run_loop_stuck (d : ℚ → ℚ) (now : ℚ) (oracle : Nat → Outcome) :
    ∀ (fuel : Nat) (m : ManagerState) (tried : List Nat) (retries k : Nat),
      retries < RETRY_LIMIT →
      tried.contains m.current_index = true →
      tried.length < m.statuses.length →
      switch_account d now m = m →
      run_loop d now oracle fuel m tried retries k = none := by
  intro fuel
  induction fuel with
  | zero => intro m tried retries k _ _ _ _; rfl
  | succ fuel ih =>
      intro m tried retries k h1 h2 h3 hfix
      rw [run_loop, if_pos h1, if_pos ⟨h2, h3⟩, hfix]
      exact ih m tried retries k h1 h2 h3 hfix

theorem select_best_pair_first_unavail (now : ℚ) (s0 s1 : AccountStatus)
    (h0 : is_account_available now s0 = true)
    (hpos : (-1 : ℚ) < s0.health_score)
    (h1 : is_account_available now s1 = false) :
    select_best now [s0, s1] 0 (-1, none) = (s0.health_score, some 0) := by
  rw [select_best]
  rw [if_pos (show is_account_available now s0 = true ∧
    ((-1 : ℚ), (none : Option Nat)).1 < s0.health_score from ⟨h0, hpos⟩)]
  rw [select_best]
  rw [if_neg (show ¬(is_account_available now s1 = true ∧
    ((s0.health_score, some 0) : ℚ × Option Nat).1 < s1.health_score) from
    fun hc => by rw [h1] at hc; exact Bool.false_ne_true hc.1)]
  rw [select_best]

theorem select_best_single_avail (now : ℚ) (s : AccountStatus)
    (h0 : is_account_available now s = true)
    (hpos : (-1 : ℚ) < s.health_score) :
    select_best now [s] 0 (-1, none) = (s.health_score, some 0) := by
  rw [select_best]
  rw [if_pos (show is_account_available now s = true ∧
    ((-1 : ℚ), (none : Option Nat)).1 < s.health_score from ⟨h0, hpos⟩)]
  rw [select_best]

theorem select_best_single_unavail (now : ℚ) (s : AccountStatus)
    (h0 : is_account_available now s = false) :
    select_best now [s] 0 (-1, none) = (-1, none) := by
  rw [select_best]
  rw [if_neg (show ¬(is_account_available now s = true ∧
    ((-1 : ℚ), (none : Option Nat)).1 < s.health_score) from
    fun hc => by rw [h0] at hc; exact Bool.false_ne_true hc.1)]
  rw [select_best]

theorem select_lru_single_unavail (now : ℚ) (s : AccountStatus)
    (h0 : is_account_available now s = false) :
    select_lru now [s] 0 (none, none) = (none, none) := by
  rw [select_lru]
  rw [if_neg (show ¬is_account_available now s = true from
    fun hc => by rw [h0] at hc; exact Bool.false_ne_true hc)]
  rw [select_lru]

theorem select_expiry_single (s : AccountStatus) (t : ℚ)
    (hrlu : s.rate_limited_until = some t) (hblu : s.blacklisted_until = none) :
    select_expiry [s] 0 (none, none) = (some t, some 0) := by
  rw [select_expiry, hrlu, hblu]
  rw [select_expiry]

/-- A two-account fixpoint of `switch_account`: with `current_index = 0`,
account 0 available with top health above `MIN_HEALTH_FOR_PRIMARY` and
account 1 unavailable, re-selection deterministically keeps the state
unchanged. -/
theorem switch_account_pair_first_fix (d : ℚ → ℚ) (now : ℚ)
    (s0 s1 : AccountStatus) (lhc : ℚ)
    (hskip : now - lhc < HEALTH_CHECK_INTERVAL_MIN)
    (h0 : is_account_available now s0 = true)
    (hpos : (-1 : ℚ) < s0.health_score)
    (h1 : is_account_available now s1 = false)
    (hh : MIN_HEALTH_FOR_PRIMARY < s0.health_score) :
    switch_account d now
        { statuses := [s0, s1], current_index := 0, last_health_check := lhc }
      = { statuses := [s0, s1], current_index := 0, last_health_check := lhc } := by
  unfold switch_account
  rw [run_health_check_skip _ _ _ hskip]
  dsimp only
  rw [select_best_pair_first_unavail now s0 s1 h0 hpos h1]
  dsimp only
  rw [if_pos hh]

/-- A single-account fixpoint of `switch_account`: with `current_index = 0`,
the only account available with health above the threshold. -/
theorem switch_account_single_fix (d : ℚ → ℚ) (now : ℚ) (s : AccountStatus)
    (lhc : ℚ) (hskip : now - lhc < HEALTH_CHECK_INTERVAL_MIN)
    (h0 : is_account_available now s = true)
    (hh : MIN_HEALTH_FOR_PRIMARY < s.health_score) :
    switch_account d now
        { statuses := [s], current_index := 0, last_health_check := lhc }
      = { statuses := [s], current_index := 0, last_health_check := lhc } := by
  unfold switch_account
  rw [run_health_check_skip _ _ _ hskip]
  dsimp only
  rw [select_best_single_avail now s h0
    (lt_trans (by norm_num [MIN_HEALTH_FOR_PRIMARY]) hh)]
  dsimp only
  rw [if_pos hh]

/-- A single-account fixpoint of `switch_account` when the only account is
rate limited: strategy 3 picks it again (earliest expiry). -/
theorem switch_account_single_limited_fix (d : ℚ → ℚ) (now : ℚ)
    (s : AccountStatus) (lhc t : ℚ)
    (hskip : now - lhc < HEALTH_CHECK_INTERVAL_MIN)
    (h0 : is_account_available now s = false)
    (hrlu : s.rate_limited_until = some t) (hblu : s.blacklisted_until = none) :
    switch_account d now
        { statuses := [s], current_index := 0, last_health_check := lhc }
      = { statuses := [s], current_index := 0, last_health_check := lhc } := by
  unfold switch_account
  rw [run_health_check_skip _ _ _ hskip]
  dsimp only
  rw [select_best_single_unavail now s h0]
  dsimp only
  unfold switch_fallback
  rw [show (select_lru now [s] 0 (none, none)).2 = none from by
    rw [select_lru_single_unavail now s h0]]
  dsimp only
  rw [show (select_expiry [s] 0 (none, none)).2 = some 0 from by
    rw [select_expiry_single s t hrlu hblu]]

/-- The plain `mark_failure` branch (no rate limit, below the 3-failure
cooldown threshold), with no explicit error message. -/
theorem mark_failure_plain_effects (d : ℚ → ℚ) (now : ℚ) (et : String)
    (s : AccountStatus) (hd : d 0 = 1) (het : et ≠ "auth")
    (hlo : 10 ≤ s.health_score) (hhi : s.health_score ≤ 100)
    (hcf : s.consecutive_failures + 1 < 3) :
    mark_failure d now false et none s = { s with
      failures := s.failures + 1,
      consecutive_failures := s.consecutive_failures + 1,
      total_failures := s.total_failures + 1,
      last_used := some now,
      success_streak := 0,
      error_types := bump_error s.error_types et,
      last_error := some ("Error type: " ++ et),
      health_score := s.health_score - 10 } := by
  unfold mark_failure failure_escalation with_health_change
  dsimp only
  rw [if_neg het]
  rw [if_neg (show ¬(false = true) by simp)]
  rw [if_neg (show ¬MAX_CONSECUTIVE_FAILURES ≤ s.consecutive_failures + 1 by
    simp only [MAX_CONSECUTIVE_FAILURES]; omega)]
  rw [if_neg (show ¬3 ≤ s.consecutive_failures + 1 by omega)]
  rw [update_health_score_at_now d now _ _ hd
    (by simp only [HEALTH_PENALTY_RATE]; linarith)
    (by simp only [HEALTH_PENALTY_RATE]; linarith)]
  simp only [AccountStatus.mk.injEq, HEALTH_PENALTY_RATE, sub_eq_add_neg]

/-- The `mark_failure` branch that applies the secondary cooldown (third or
fourth consecutive non-rate-limit failure), with no explicit error
message. -/
theorem mark_failure_cooldown_effects (d : ℚ → ℚ) (now : ℚ) (et : String)
    (s : AccountStatus) (hd : d 0 = 1) (het : et ≠ "auth")
    (hlo : 10 ≤ s.health_score) (hhi : s.health_score ≤ 100)
    (hcf3 : 3 ≤ s.consecutive_failures + 1)
    (hcf5 : s.consecutive_failures + 1 < MAX_CONSECUTIVE_FAILURES) :
    mark_failure d now false et none s = { s with
      failures := s.failures + 1,
      consecutive_failures := s.consecutive_failures + 1,
      total_failures := s.total_failures + 1,
      last_used := some now,
      success_streak := 0,
      error_types := bump_error s.error_types et,
      last_error := some ("Error type: " ++ et),
      health_score := s.health_score - 10,
      rate_limited_until :=
        some (now + min 30 (5 * ((s.consecutive_failures + 1 : ℕ) : ℚ))) } := by
  unfold mark_failure failure_escalation with_health_change
  dsimp only
  rw [if_neg het]
  rw [if_neg (show ¬(false = true) by simp)]
  rw [if_neg (show ¬MAX_CONSECUTIVE_FAILURES ≤ s.consecutive_failures + 1 by
    simp only [MAX_CONSECUTIVE_FAILURES] at hcf5 ⊢; omega)]
  rw [if_pos (show 3 ≤ s.consecutive_failures + 1 from hcf3)]
  rw [update_health_score_at_now d now _ _ hd
    (by simp only [HEALTH_PENALTY_RATE]; linarith)
    (by simp only [HEALTH_PENALTY_RATE]; linarith)]
  simp only [AccountStatus.mk.injEq, HEALTH_PENALTY_RATE, sub_eq_add_neg]

/-- The divergence scenario's account 0: available, top health 80, last used
at t = 0. -/
def stuck_account_a : AccountStatus :=
  { default_status with health_score := 80, last_used := some 0 }

/-- The divergence scenario's account 1: rate limited until t = 100. -/
def stuck_account_b : AccountStatus :=
  { default_status with rate_limited_until := some 100 }

/-- The divergence scenario's starting manager state. -/
def stuck_pool : ManagerState :=
  { statuses := [stuck_account_a, stuck_account_b],
    current_index := 0, last_health_check := 0 }

/-- Account 0 of the divergence scenario after its first failed attempt. -/
def stuck_account_a1 : AccountStatus :=
  { stuck_account_a with
      failures := stuck_account_a.failures + 1,
      consecutive_failures := stuck_account_a.consecutive_failures + 1,
      total_failures := stuck_account_a.total_failures + 1,
      last_used := some 0,
      success_streak := 0,
      error_types := bump_error stuck_account_a.error_types "api_error",
      last_error := some ("Error type: " ++ "api_error"),
      health_score := stuck_account_a.health_score - 10 }

theorem mark_stuck_a :
    mark_failure (fun _ => 1) 0 false "api_error" none stuck_account_a
      = stuck_account_a1 := by
  rw [mark_failure_plain_effects (fun _ => 1) 0 "api_error" stuck_account_a rfl
    (by decide) (by norm_num [stuck_account_a]) (by norm_num [stuck_account_a])
    (by norm_num [stuck_account_a, default_status])]
  rfl

theorem switch_stuck_fix :
    switch_account (fun _ => 1) 0
        { statuses := [stuck_account_a1, stuck_account_b],
          current_index := 0, last_health_check := 0 }
      = { statuses := [stuck_account_a1, stuck_account_b],
          current_index := 0, last_health_check := 0 } :=
  switch_account_pair_first_fix (fun _ => 1) 0 stuck_account_a1 stuck_account_b 0
    (by norm_num [HEALTH_CHECK_INTERVAL_MIN])
    (by simp [is_account_available, expiry_active, stuck_account_a1,
      stuck_account_a, default_status])
    (by norm_num [stuck_account_a1, stuck_account_a])
    (by simp [is_account_available, expiry_active, stuck_account_b,
      default_status])
    (by norm_num [MIN_HEALTH_FOR_PRIMARY, stuck_account_a1, stuck_account_a])

/-- C6 (code bug): a complete `run` call that never terminates.  Account 0
is available with top health (80 > `MIN_HEALTH_FOR_PRIMARY`), account 1 is
rate-limited until t = 100.  The first attempt (a non-429 API error) fails
and is retried; from then on `switch_account` deterministically returns
account 0, which is already in `tried_accounts` while `len(tried) <
len(accounts)`, so the loop re-selects without counting an attempt, forever:
for every fuel bound the loop is still running and returns nothing. -/
theorem run_busy_loop_diverges (fuel : Nat) :
    run_loop (fun _ => 1) 0 (fun _ => Outcome.api_error) fuel
      stuck_pool [] 0 0 = none := by
  cases fuel with
  | zero => rfl
  | succ fuel =>
      rw [run_loop, if_pos (by norm_num [RETRY_LIMIT]),
        if_neg (by simp [stuck_pool])]
      dsimp only [outcome_class]
      simp only [stuck_pool]
      rw [show set_at [stuck_account_a, stuck_account_b] 0
          (mark_failure (fun _ => 1) 0 false "api_error" none)
        = [mark_failure (fun _ => 1) 0 false "api_error" none stuck_account_a,
            stuck_account_b] from rfl]
      rw [mark_stuck_a]
      rw [switch_stuck_fix]
      exact run_loop_stuck (fun _ => 1) 0 (fun _ => Outcome.api_error) fuel _
        _ _ _ (by norm_num [RETRY_LIMIT]) (by simp) (by simp) switch_stuck_fix

/-- The exhaustion scenario's single account, fresh with `last_used = 0`. -/
def exhaust_s0 : AccountStatus := { default_status with last_used := some 0 }

/-- The exhaustion scenario's account after one failed attempt. -/
def exhaust_s1 : AccountStatus :=
  { exhaust_s0 with
      failures := exhaust_s0.failures + 1,
      consecutive_failures := exhaust_s0.consecutive_failures + 1,
      total_failures := exhaust_s0.total_failures + 1,
      last_used := some 0,
      success_streak := 0,
      error_types := bump_error exhaust_s0.error_types "api_error",
      last_error := some ("Error type: " ++ "api_error"),
      health_score := exhaust_s0.health_score - 10 }

/-- The exhaustion scenario's account after two failed attempts. -/
def exhaust_s2 : AccountStatus :=
  { exhaust_s1 with
      failures := exhaust_s1.failures + 1,
      consecutive_failures := exhaust_s1.consecutive_failures + 1,
      total_failures := exhaust_s1.total_failures + 1,
      last_used := some 0,
      success_streak := 0,
      error_types := bump_error exhaust_s1.error_types "api_error",
      last_error := some ("Error type: " ++ "api_error"),
      health_score := exhaust_s1.health_score - 10 }

/-- The exhaustion scenario's account after three failed attempts: the third
consecutive failure also applies the secondary cooldown. -/
def exhaust_s3 : AccountStatus :=
  { exhaust_s2 with
      failures := exhaust_s2.failures + 1,
      consecutive_failures := exhaust_s2.consecutive_failures + 1,
      total_failures := exhaust_s2.total_failures + 1,
      last_used := some 0,
      success_streak := 0,
      error_types := bump_error exhaust_s2.error_types "api_error",
      last_error := some ("Error type: " ++ "api_error"),
      health_score := exhaust_s2.health_score - 10,
      rate_limited_until :=
        some (0 + min 30 (5 * ((exhaust_s2.consecutive_failures + 1 : ℕ) : ℚ))) }

theorem mark_exhaust_1 :
    mark_failure (fun _ => 1) 0 false "api_error" none exhaust_s0
      = exhaust_s1 := by
  rw [mark_failure_plain_effects (fun _ => 1) 0 "api_error" exhaust_s0 rfl
    (by decide) (by norm_num [exhaust_s0, default_status])
    (by norm_num [exhaust_s0, default_status])
    (by norm_num [exhaust_s0, default_status])]
  rfl

theorem mark_exhaust_2 :
    mark_failure (fun _ => 1) 0 false "api_error" none exhaust_s1
      = exhaust_s2 := by
  rw [mark_failure_plain_effects (fun _ => 1) 0 "api_error" exhaust_s1 rfl
    (by decide) (by norm_num [exhaust_s1, exhaust_s0, default_status])
    (by norm_num [exhaust_s1, exhaust_s0, default_status])
    (by norm_num [exhaust_s1, exhaust_s0, default_status])]
  rfl

theorem mark_exhaust_3 :
    mark_failure (fun _ => 1) 0 false "api_error" none exhaust_s2
      = exhaust_s3 := by
  rw [mark_failure_cooldown_effects (fun _ => 1) 0 "api_error" exhaust_s2 rfl
    (by decide)
    (by norm_num [exhaust_s2, exhaust_s1, exhaust_s0, default_status])
    (by norm_num [exhaust_s2, exhaust_s1, exhaust_s0, default_status])
    (by norm_num [exhaust_s2, exhaust_s1, exhaust_s0, default_status])
    (by norm_num [exhaust_s2, exhaust_s1, exhaust_s0, default_status,
      MAX_CONSECUTIVE_FAILURES])]
  rfl

theorem switch_exhaust_fix1 :
    switch_account (fun _ => 1) 0
        { statuses := [exhaust_s1], current_index := 0, last_health_check := 0 }
      = { statuses := [exhaust_s1], current_index := 0, last_health_check := 0 } :=
  switch_account_single_fix (fun _ => 1) 0 exhaust_s1 0
    (by norm_num [HEALTH_CHECK_INTERVAL_MIN])
    (by simp [is_account_available, expiry_active, exhaust_s1, exhaust_s0,
      default_status])
    (by norm_num [MIN_HEALTH_FOR_PRIMARY, exhaust_s1, exhaust_s0, default_status])

theorem switch_exhaust_fix2 :
    switch_account (fun _ => 1) 0
        { statuses := [exhaust_s2], current_index := 0, last_health_check := 0 }
      = { statuses := [exhaust_s2], current_index := 0, last_health_check := 0 } :=
  switch_account_single_fix (fun _ => 1) 0 exhaust_s2 0
    (by norm_num [HEALTH_CHECK_INTERVAL_MIN])
    (by simp [is_account_available, expiry_active, exhaust_s2, exhaust_s1,
      exhaust_s0, default_status])
    (by norm_num [MIN_HEALTH_FOR_PRIMARY, exhaust_s2, exhaust_s1, exhaust_s0,
      default_status])

theorem switch_exhaust_fix3 :
    switch_account (fun _ => 1) 0
        { statuses := [exhaust_s3], current_index := 0, last_health_check := 0 }
      = { statuses := [exhaust_s3], current_index := 0, last_health_check := 0 } :=
  switch_account_single_limited_fix (fun _ => 1) 0 exhaust_s3 0
    (0 + min 30 (5 * ((exhaust_s2.consecutive_failures + 1 : ℕ) : ℚ)))
    (by norm_num [HEALTH_CHECK_INTERVAL_MIN])
    (by
      simp [is_account_available, expiry_active, exhaust_s3, exhaust_s2,
        exhaust_s1, exhaust_s0, default_status, min_def]
      norm_num)
    rfl rfl

/-- C7 counterexample: a single-account pool suffering three consecutive
non-429 API errors exhausts `RETRY_LIMIT = 3` and `run` terminates with the
failure dictionary; its error string is the code's literal
"All API accounts failed", not the claimed "all accounts failed". -/
theorem run_exhaustion_counterexample :
    (run_loop (fun _ => 1) 0 (fun _ => Outcome.api_error) 4
        { statuses := [exhaust_s0], current_index := 0, last_health_check := 0 }
        [] 0 0).map Prod.fst
      = some (RunResult.failure_report "All API accounts failed" 60 [0]) ∧
    "All API accounts failed" ≠ "all accounts failed" := by
  constructor
  · rw [run_loop, if_pos (by norm_num [RETRY_LIMIT]), if_neg (by simp)]
    dsimp only [outcome_class]
    rw [show set_at [exhaust_s0] 0
        (mark_failure (fun _ => 1) 0 false "api_error" none)
      = [mark_failure (fun _ => 1) 0 false "api_error" none exhaust_s0] from rfl]
    rw [mark_exhaust_1, switch_exhaust_fix1]
    rw [run_loop, if_pos (by norm_num [RETRY_LIMIT]), if_neg (by simp)]
    dsimp only [outcome_class]
    rw [show set_at [exhaust_s1] 0
        (mark_failure (fun _ => 1) 0 false "api_error" none)
      = [mark_failure (fun _ => 1) 0 false "api_error" none exhaust_s1] from rfl]
    rw [mark_exhaust_2, switch_exhaust_fix2]
    rw [run_loop, if_pos (by norm_num [RETRY_LIMIT]), if_neg (by simp)]
    dsimp only [outcome_class]
    rw [show set_at [exhaust_s2] 0
        (mark_failure (fun _ => 1) 0 false "api_error" none)
      = [mark_failure (fun _ => 1) 0 false "api_error" none exhaust_s2] from rfl]
    rw [mark_exhaust_3, switch_exhaust_fix3]
    rw [run_loop, if_neg (by norm_num [RETRY_LIMIT])]
    simp
  · decide

theorem run_result_shape_witness :
    (∃ a i, RunResult.success 0 0 = RunResult.success a i) ∨
    ∃ tr, RunResult.success 0 0
      = RunResult.failure_report "All API accounts failed" 60 tr :=
  run_result_shape (fun _ => 1) 0 (fun _ => Outcome.ok 1) 1
    { statuses := [default_status], current_index := 0, last_health_check := 0 }
    [] 0 0 (RunResult.success 0 0) rfl

/-- A timestamp field of a status dictionary as the loader leaves it in
memory: a `datetime` (a rational minute count), Python `None`, or the empty
string.  The empty string is Python-falsy, so both `_initialize_account_status`
and `_save_account_status` skip their conversion (`if status[f]:` fails) and
copy it unchanged; it is the only string value the loader can leave behind,
since every truthy string is either parsed or replaced by `None`. -/
inductive TimeField where
  | tnone
  | ttime (t : ℚ)
  | blank
deriving DecidableEq

/-- One account's entry of the JSON snapshot written by
`_save_account_status`: the four timestamp fields are ISO strings or null,
everything else is stored as-is. -/
structure SavedStatus where
  failures : Nat
  consecutive_failures : Nat
  rate_limited_until : Option String
  blacklisted_until : Option String
  last_success : Option String
  last_used : Option String
  total_requests : Nat
  total_failures : Nat
  health_score : ℚ
  cooldown_multiplier : ℚ
  avg_response_time : Option ℚ
  response_times : List ℚ
  error_types : List (String × Nat)
  last_error : Option String
  success_streak : Nat

/-- One account's in-memory status as `_initialize_account_status` produces
it: timestamps are `TimeField`s, everything else is copied from the
snapshot. -/
structure LoadedStatus where
  failures : Nat
  consecutive_failures : Nat
  rate_limited_until : TimeField
  blacklisted_until : TimeField
  last_success : TimeField
  last_used : TimeField
  total_requests : Nat
  total_failures : Nat
  health_score : ℚ
  cooldown_multiplier : ℚ
  avg_response_time : Option ℚ
  response_times : List ℚ
  error_types : List (String × Nat)
  last_error : Option String
  success_streak : Nat

/-- The loader's treatment of one timestamp field
(`_initialize_account_status` lines 49-71): null stays `None`; the falsy
empty string is skipped by the truthiness guard and left as-is; a truthy
string is parsed with `datetime.fromisoformat`, and a `ValueError`/
`TypeError` sets the field to `None`.  `fromiso` is the oracle for
`fromisoformat` (`none` = the exception path). -/
def parse_time (fromiso : String → Option ℚ) : Option String → TimeField
  | Option.none => TimeField.tnone
  | some s =>
      if s = "" then TimeField.blank
      else
        match fromiso s with
        | some t => TimeField.ttime t
        | Option.none => TimeField.tnone

/-- The saver's treatment of one timestamp field (`_save_account_status`
lines 126-136): a truthy `datetime` is rendered with `isoformat` (oracle
`iso`); `None` and the falsy empty string are copied unchanged. -/
def ser_time (iso : ℚ → String) : TimeField → Option String
  | TimeField.tnone => Option.none
  | TimeField.ttime t => some (iso t)
  | TimeField.blank => some ""

/-- `status_copy["response_times"][-10:]`, applied only when the list holds
more than 10 entries (`_save_account_status` lines 139-140). -/
def trunc_times (l : List ℚ) : List ℚ :=
  if 10 < l.length then l.drop (l.length - 10) else l

/-- Loading one snapshot entry (the per-status body of
`_initialize_account_status`). -/
def load_status (fromiso : String → Option ℚ) (sv : SavedStatus) :
    LoadedStatus :=
  { failures := sv.failures,
    consecutive_failures := sv.consecutive_failures,
    rate_limited_until := parse_time fromiso sv.rate_limited_until,
    blacklisted_until := parse_time fromiso sv.blacklisted_until,
    last_success := parse_time fromiso sv.last_success,
    last_used := parse_time fromiso sv.last_used,
    total_requests := sv.total_requests,
    total_failures := sv.total_failures,
    health_score := sv.health_score,
    cooldown_multiplier := sv.cooldown_multiplier,
    avg_response_time := sv.avg_response_time,
    response_times := sv.response_times,
    error_types := sv.error_types,
    last_error := sv.last_error,
    success_streak := sv.success_streak }

/-- Saving one status entry (the per-status body of
`_save_account_status`). -/
def save_ser (iso : ℚ → String) (st : LoadedStatus) : SavedStatus :=
  { failures := st.failures,
    consecutive_failures := st.consecutive_failures,
    rate_limited_until := ser_time iso st.rate_limited_until,
    blacklisted_until := ser_time iso st.blacklisted_until,
    last_success := ser_time iso st.last_success,
    last_used := ser_time iso st.last_used,
    total_requests := st.total_requests,
    total_failures := st.total_failures,
    health_score := st.health_score,
    cooldown_multiplier := st.cooldown_multiplier,
    avg_response_time := st.avg_response_time,
    response_times := trunc_times st.response_times,
    error_types := st.error_types,
    last_error := st.last_error,
    success_streak := st.success_streak }

/-- `account_id in saved_status` / `saved_status[account_id]` on the JSON
object, read as an association list. -/
def find_saved : List (String × SavedStatus) → String → Option SavedStatus
  | [], _ => Option.none
  | (k, v) :: rest, id => if k = id then some v else find_saved rest id

/-- `_create_default_status`, on the loaded-status shape. -/
def default_loaded : LoadedStatus :=
  { failures := 0, consecutive_failures := 0,
    rate_limited_until := TimeField.tnone,
    blacklisted_until := TimeField.tnone,
    last_success := TimeField.tnone,
    last_used := TimeField.tnone,
    total_requests := 0, total_failures := 0,
    health_score := 100, cooldown_multiplier := 1,
    avg_response_time := Option.none, response_times := [],
    error_types := [], last_error := Option.none, success_streak := 0 }

/-- `_initialize_account_status` lines 74-80: each account index takes the
snapshot entry keyed by its account id, or the default status when the id is
absent. -/
def load_account_status (fromiso : String → Option ℚ)
    (ids : List String) (saved : List (String × SavedStatus)) :
    List LoadedStatus :=
  ids.map (fun id =>
    match find_saved saved id with
    | some sv => load_status fromiso sv
    | Option.none => default_loaded)

/-- `_save_account_status` lines 120-142: each tracked status is serialized
under its account id. -/
def save_account_status (iso : ℚ → String)
    (ids : List String) (sts : List LoadedStatus) :
    List (String × SavedStatus) :=
  List.zipWith (fun id st => (id, save_ser iso st)) ids sts

/-- A saved timestamp field that survives the round trip: null, the empty
string, or a string the parser maps to a time that renders back to the same
string (ISO strings are second-precision, so this is equality to second
precision). -/
def time_ok (iso : ℚ → String) (fromiso : String → Option ℚ) :
    Option String → Bool
  | Option.none => true
  | some s =>
      if s = "" then true
      else
        match fromiso s with
        | some t => iso t == s
        | Option.none => false

/-- A snapshot entry fit for the round trip: all four timestamp fields
survive and the response-time window is already within the 10-entry cap. -/
def snap_ok (iso : ℚ → String) (fromiso : String → Option ℚ)
    (sv : SavedStatus) : Prop :=
  time_ok iso fromiso sv.rate_limited_until = true ∧
  time_ok iso fromiso sv.blacklisted_until = true ∧
  time_ok iso fromiso sv.last_success = true ∧
  time_ok iso fromiso sv.last_used = true ∧
  sv.response_times.length ≤ 10

theorem ser_parse (iso : ℚ → String) (fromiso : String → Option ℚ)
    (o : Option String) (h : time_ok iso fromiso o = true) :
    ser_time iso (parse_time fromiso o) = o := by
  match o with
  | Option.none => rfl
  | some s =>
      by_cases hs : s = ""
      · subst hs
        rfl
      · simp only [time_ok, if_neg hs] at h
        simp only [parse_time, if_neg hs]
        rcases hf : fromiso s with _ | t
        · rw [hf] at h
          exact absurd h (by simp)
        · rw [hf] at h
          simp only [ser_time, Option.some.injEq]
          exact beq_iff_eq.mp h

theorem save_load_ser (iso : ℚ → String) (fromiso : String → Option ℚ)
    (sv : SavedStatus) (h : snap_ok iso fromiso sv) :
    save_ser iso (load_status fromiso sv) = sv := by
  obtain ⟨h1, h2, h3, h4, h5⟩ := h
  cases sv with
  | mk f cf rlu blu ls lu tr tf hs cm art rts et le st =>
      dsimp only at h1 h2 h3 h4 h5
      simp only [load_status, save_ser]
      rw [ser_parse _ _ _ h1, ser_parse _ _ _ h2, ser_parse _ _ _ h3,
        ser_parse _ _ _ h4]
      rw [show trunc_times rts = rts from by
        rw [trunc_times, if_neg (by omega)]]

theorem trunc_times_le (l : List ℚ) : (trunc_times l).length ≤ 10 := by
  rw [trunc_times]
  by_cases h : 10 < l.length
  · rw [if_pos h, List.length_drop]
    omega
  · rw [if_neg h]
    omega

theorem roundtrip_aux (iso : ℚ → String) (fromiso : String → Option ℚ) :
    ∀ (ids : List String) (svs : List SavedStatus),
      ids.length = svs.length → ids.Nodup →
      (∀ sv ∈ svs, snap_ok iso fromiso sv) →
      save_account_status iso ids
          (load_account_status fromiso ids (ids.zip svs))
        = ids.zip svs := by
  intro ids
  induction ids with
  | nil =>
      intro svs _ _ _
      rfl
  | cons id ids ih =>
      intro svs hlen hnd hok
      cases svs with
      | nil => simp at hlen
      | cons sv svs =>
          have hfind : find_saved ((id, sv) :: ids.zip svs) id = some sv := by
            simp [find_saved]
          have htail :
              ids.map (fun a =>
                  match find_saved ((id, sv) :: ids.zip svs) a with
                  | some sv' => load_status fromiso sv'
                  | Option.none => default_loaded)
                = load_account_status fromiso ids (ids.zip svs) := by
            simp only [load_account_status]
            refine List.map_congr_left ?_
            intro a ha
            have hne : id ≠ a :=
              fun he => (List.nodup_cons.mp hnd).1 (he ▸ ha)
            simp only [find_saved, if_neg hne]
          rw [show (id :: ids).zip (sv :: svs) = (id, sv) :: ids.zip svs
            from rfl]
          simp only [load_account_status, List.map_cons]
          rw [hfind]
          rw [htail]
          simp only [save_account_status, List.zipWith_cons_cons]
          rw [save_load_ser iso fromiso sv (hok sv (List.mem_cons_self _ _))]
          have hrec := ih svs (by simp only [List.length_cons] at hlen; omega)
            (List.nodup_cons.mp hnd).2
            (fun sv' h' => hok sv' (List.mem_cons_of_mem _ h'))
          simp only [save_account_status] at hrec
          rw [hrec]

/-- C8: loading a well-formed snapshot and saving it again reproduces the
snapshot exactly (well-formed: distinct account ids, each timestamp field
null, empty, or a string `fromisoformat` parses to a time `isoformat`
renders back identically — ISO strings carry second precision — and the
response-time window already within its 10-entry cap); a truthy timestamp
string the parser rejects is set to None without raising; a set timestamp is
saved as its ISO string; and the saved response-time window never exceeds 10
entries. -/
theorem status_snapshot_roundtrip :
    (∀ (iso : ℚ → String) (fromiso : String → Option ℚ)
        (ids : List String) (svs : List SavedStatus),
        ids.length = svs.length → ids.Nodup →
        (∀ sv ∈ svs, snap_ok iso fromiso sv) →
        save_account_status iso ids
            (load_account_status fromiso ids (ids.zip svs))
          = ids.zip svs) ∧
    (∀ (fromiso : String → Option ℚ) (s : String),
        s ≠ "" → fromiso s = Option.none →
        parse_time fromiso (some s) = TimeField.tnone) ∧
    (∀ (iso : ℚ → String) (st : LoadedStatus) (t : ℚ),
        st.rate_limited_until = TimeField.ttime t →
        (save_ser iso st).rate_limited_until = some (iso t)) ∧
    (∀ (iso : ℚ → String) (st : LoadedStatus),
        (save_ser iso st).response_times.length ≤ 10) := by
  refine ⟨roundtrip_aux, ?_, ?_, ?_⟩
  · intro fromiso s hs hf
    simp only [parse_time, if_neg hs, hf]
  · intro iso st t ht
    simp only [save_ser, ht, ser_time]
  · intro iso st
    exact trunc_times_le st.response_times

/-- The round-trip witness's `isoformat` oracle. -/
def wIso : ℚ → String := fun _ => "T"

/-- The round-trip witness's `fromisoformat` oracle. -/
def wFrom : String → Option ℚ := fun s => if s = "T" then some 5 else Option.none

/-- The round-trip witness's snapshot entry: one parsed timestamp, one empty
string left in place, a bounded response window. -/
def wSv : SavedStatus :=
  { failures := 1, consecutive_failures := 0,
    rate_limited_until := some "T", blacklisted_until := Option.none,
    last_success := Option.none, last_used := some "",
    total_requests := 3, total_failures := 1, health_score := 90,
    cooldown_multiplier := 1, avg_response_time := Option.none,
    response_times := [1, 2], error_types := [("api_error", 1)],
    last_error := Option.none, success_streak := 0 }

theorem status_snapshot_roundtrip_witness :
    save_account_status wIso ["acct"]
        (load_account_status wFrom ["acct"] (["acct"].zip [wSv]))
      = ["acct"].zip [wSv] ∧
    parse_time wFrom (some "x") = TimeField.tnone :=
  ⟨status_snapshot_roundtrip.1 wIso wFrom ["acct"] [wSv] rfl
      (by simp)
      (by
        intro sv hsv
        rw [List.mem_singleton] at hsv
        subst hsv
        exact ⟨rfl, rfl, rfl, rfl, by norm_num [wSv]⟩),
    status_snapshot_roundtrip.2.1 wFrom "x" (by decide) rfl⟩

/-- C8 counterexample: the empty string is a malformed timestamp
(`datetime.fromisoformat("")` raises), yet the loader's truthiness guard
`if status[f]:` skips it, so the field is left as `""` instead of being set
to None — and the saver's identical guard writes `""` back out unchanged. -/
theorem empty_timestamp_counterexample :
    parse_time (fun _ => Option.none) (some "") = TimeField.blank ∧
    TimeField.blank ≠ TimeField.tnone ∧
    ser_time (fun _ => "T") TimeField.blank = some "" :=
  ⟨rfl, fun h => TimeField.noConfusion h, rfl⟩
